import Mathlib

/-! # ChatApp: realtime thread synchronisation and unread tracking

A shallow embedding of the subscription and notification logic of the support
chat (`src/chatStore.js`, `src/lib/notify.js`, `src/pages/AdminInbox.js`,
`src/components/SupportChatWidget.js`).

Modelling conventions

* A JavaScript object used as a string-keyed map is an association list in
  insertion order (`Obj`).  Reading a key is `objGet`, assignment and the
  spread-with-computed-key idiom are `objSet`, the `delete` operator is `objDel`.
* JavaScript truthiness of a string is "is not the empty string"; of an
  optional value "is present and truthy".
* The guard that asks a plain object whether it holds a conversation id sees
  the members inherited from `Object.prototype` too (`plainHas`).  The tracker
  handler is registered only for ids that pass that guard, and for those the
  own-property read `objGet` is exact.
* Strings are compared with `>` the way JavaScript does it: by their UTF-16
  code units (`utf16`).
* `Array.prototype.sort` is a stable comparison sort driven by the sign of the
  comparator (`jsSort`).
* React state updates and ref mutations are applied in program order; one run
  of an effect is its previous cleanup followed by its body, and when several
  effects of a render re-run, all cleanups run before all bodies.
* The store's listeners are kept as a list of (handle, conversation id).
  `onValue` attaches one listener; `off(ref)` without a callback detaches every
  listener on the path of `ref`.
-/

namespace ChatApp

/-! ## JavaScript objects as maps -/

/-- A JavaScript object with string keys: own properties in insertion order. -/
abbrev Obj (β : Type) := List (String × β)

/-- Property read `o[k]`; `none` stands for `undefined`. -/
def objGet {β : Type} : Obj β → String → Option β
  | [], _ => none
  | (k', v) :: rest, k => if k' = k then some v else objGet rest k

/-- Property write `o[k] = v` (also `{...o, [k]: v}`): an existing key keeps
its position, a new key is appended. -/
def objSet {β : Type} : Obj β → String → β → Obj β
  | [], k, v => [(k, v)]
  | (k', v') :: rest, k, v =>
    if k' = k then (k', v) :: rest else (k', v') :: objSet rest k v

/-- The `delete o[k]` operator. -/
def objDel {β : Type} (o : Obj β) (k : String) : Obj β :=
  o.filter (fun p => p.1 ≠ k)

/-- The list `Object.keys(o)`. -/
def objKeys {β : Type} (o : Obj β) : List String :=
  o.map Prod.fst

/-- The list `Object.values(o)`. -/
def objValues {β : Type} (o : Obj β) : List β :=
  o.map Prod.snd

/-- The property names a plain object `{}` inherits from `Object.prototype`;
each of them reads as a truthy member (a function, or the prototype itself). -/
def inheritedNames : List String :=
  ["constructor", "hasOwnProperty", "isPrototypeOf", "propertyIsEnumerable",
   "toLocaleString", "toString", "valueOf", "__proto__", "__defineGetter__",
   "__defineSetter__", "__lookupGetter__", "__lookupSetter__"]

/-- Whether `k` names a member inherited from `Object.prototype`. -/
def isInherited (k : String) : Bool := inheritedNames.contains k

/-- Truthiness of the read `o[k]` on a plain object whose own values are all
truthy: an own property, or a member inherited from `Object.prototype`. -/
def plainHas {β : Type} (o : Obj β) (k : String) : Bool :=
  (objGet o k).isSome || isInherited k

/-- JavaScript truthiness of a string value. -/
def truthy (s : String) : Bool := s ≠ ""

/-- JavaScript truthiness of a possibly undefined string. -/
def truthyOpt : Option String → Bool
  | none => false
  | some s => truthy s

/-! ## Data model -/

/-- The `createdAt` or `lastAt` field as read from the store: a number once the
server has resolved it, something else (placeholder object, missing) before. -/
inductive Timestamp where
  | resolved (ms : Int)
  | pending
  deriving DecidableEq, Repr

/-- The stored body of a message, `{text, sender, createdAt}`. -/
structure MessageBody where
  text : String
  sender : String
  createdAt : Timestamp
  deriving DecidableEq, Repr

/-- An element of the array `subscribeToMessages` hands to its callback:
`{id, ...val[id]}`. -/
structure Message where
  id : String
  text : String
  sender : String
  createdAt : Timestamp
  deriving DecidableEq, Repr

/-- The stored summary of a conversation under `support/users/<id>`. -/
structure SummaryBody where
  name : Option String
  lastMessage : Option String
  lastAt : Timestamp
  deriving DecidableEq, Repr

/-- An element of the array `subscribeToUsers` hands to its callback:
`{userId: id, ...val[id]}`. -/
structure Summary where
  userId : String
  name : Option String
  lastMessage : Option String
  lastAt : Timestamp
  deriving DecidableEq, Repr

/-! ## lib/notify.js -/

/-- What the browser answers to the notification code. -/
structure NotifyEnv where
  /-- Result of `canUseNotifications()`. -/
  canUse : Bool
  /-- Value of `Notification.permission`. -/
  permission : String
  /-- Whether `new Notification(..)` throws. -/
  ctorThrows : Bool
  /-- Whether `document.visibilityState === "visible"`. -/
  visible : Bool
  deriving DecidableEq, Repr

/-- A call `showDesktopNotification(title, body)`. -/
structure NotifyRequest where
  title : String
  body : String
  deriving DecidableEq, Repr

/-- Function `showDesktopNotification`: the notification it constructs (if any)
and its boolean return value. -/
def showDesktopNotification (env : NotifyEnv) (r : NotifyRequest) :
    Option NotifyRequest × Bool :=
  if !env.canUse then (none, false)
  else if env.permission ≠ "granted" then (none, false)
  else if env.ctorThrows then (none, false)
  else (some r, true)

/-! ## AdminInbox.js: the per-conversation tracker handler -/

/-- The state the tracker handler reads and writes. -/
structure Tracker where
  /-- Ref `lastSeenMsgIdByUserRef.current`. -/
  lastSeen : Obj String
  /-- State `unread`. -/
  unread : Obj Nat
  deriving DecidableEq, Repr

/-- What one run of the handler leaves behind. -/
structure HandlerResult where
  tracker : Tracker
  /-- The call of `showDesktopNotification` it made, if any. -/
  requested : Option NotifyRequest
  /-- The `Notification` that call constructed, if any. -/
  shown : Option NotifyRequest
  deriving DecidableEq, Repr

/-- Expression `prev[userId] || 0`. -/
def unreadOf (unread : Obj Nat) (userId : String) : Nat :=
  (objGet unread userId).getD 0

/-- Expression `u.name || "User"`. -/
def nameOrUser : Option String → String
  | some n => if truthy n then n else "User"
  | none => "User"

/-- Expression `last.text || "New message"`. -/
def textOrDefault (text : String) : String :=
  if truthy text then text else "New message"

/-- The callback handed to `subscribeToMessages(userId, ..)` in the roster
effect.  `userId` and `uname` (`u.name`) and `activeId` (`active?.userId`) are
what the closure captured. -/
def trackerHandler (env : NotifyEnv) (userId : String) (uname : Option String)
    (activeId : Option String) (t : Tracker) (thread : List Message) : HandlerResult :=
  match thread.getLast? with
  | none => ⟨t, none, none⟩
  | some last =>
    if !truthy last.id then ⟨t, none, none⟩
    else
      let prevId := objGet t.lastSeen userId
      -- first time: set baseline and don't notify
      if !truthyOpt prevId then
        ⟨{ t with lastSeen := objSet t.lastSeen userId last.id }, none, none⟩
      -- no change
      else if prevId = some last.id then ⟨t, none, none⟩
      else
        -- update baseline
        let t1 : Tracker := { t with lastSeen := objSet t.lastSeen userId last.id }
        -- only notify for USER messages
        if last.sender ≠ "user" then ⟨t1, none, none⟩
        -- if admin is currently viewing this thread, don't unread/notify
        else if activeId = some userId then ⟨t1, none, none⟩
        else
          let t2 : Tracker :=
            { t1 with unread := objSet t1.unread userId (unreadOf t1.unread userId + 1) }
          -- notify only when tab hidden
          if env.visible then ⟨t2, none, none⟩
          else
            let req : NotifyRequest :=
              ⟨"New message from " ++ nameOrUser uname, textOrDefault last.text⟩
            ⟨t2, some req, (showDesktopNotification env req).1⟩

/-! ## JavaScript string comparison and `Array.prototype.sort` -/

/-- The UTF-16 code units of one character. -/
def charUnits (c : Char) : List Nat :=
  if c.toNat < 0x10000 then [c.toNat]
  else [0xD800 + (c.toNat - 0x10000) / 0x400, 0xDC00 + (c.toNat - 0x10000) % 0x400]

/-- The UTF-16 code units of a list of characters. -/
def unitsOf : List Char → List Nat
  | [] => []
  | c :: cs => charUnits c ++ unitsOf cs

/-- The UTF-16 code units of a string, the sequence JavaScript compares. -/
def utf16 (s : String) : List Nat := unitsOf s.data

/-- Lexicographic "less than" on code-unit sequences. -/
def unitsLt : List Nat → List Nat → Bool
  | _, [] => false
  | [], _ :: _ => true
  | a :: as, b :: bs => decide (a < b) || (decide (a = b) && unitsLt as bs)

/-- The JavaScript expression `a > b` on strings. -/
def jsGt (a b : String) : Bool := unitsLt (utf16 b) (utf16 a)

/-- Method `Array.prototype.sort(cmp)`: a stable comparison sort in which `a`
is put before `b` when `cmp a b ≤ 0`. -/
def jsSort {α : Type} (cmp : α → α → Int) (l : List α) : List α :=
  l.insertionSort (fun a b => cmp a b ≤ 0)

/-! ## chatStore.js: the two snapshot projections -/

/-- The object literal `{ id, ...val[id] }`. -/
def toMessage (p : String × MessageBody) : Message :=
  { id := p.1, text := p.2.text, sender := p.2.sender, createdAt := p.2.createdAt }

/-- The comparator `(a, b) => (a.id > b.id ? 1 : -1)`. -/
def messageCmp (a b : Message) : Int :=
  if jsGt a.id b.id then 1 else -1

/-- The `onValue` listener of `subscribeToMessages`: the array it passes to
`callback` for a snapshot (`none` is a snapshot whose `val()` is `null`). -/
def subscribeToMessages (snap : Option (Obj MessageBody)) : List Message :=
  let val := snap.getD []
  let arr := val.map toMessage
  jsSort messageCmp arr

/-- The object literal `{ userId: id, ...val[id] }`. -/
def toSummary (p : String × SummaryBody) : Summary :=
  { userId := p.1, name := p.2.name, lastMessage := p.2.lastMessage, lastAt := p.2.lastAt }

/-- Expression `typeof x.lastAt === "number" ? x.lastAt : 0`. -/
def lastAtOrZero (u : Summary) : Int :=
  match u.lastAt with
  | .resolved ms => ms
  | .pending => 0

/-- The comparator of `subscribeToUsers`, `tb - ta`. -/
def summaryCmp (a b : Summary) : Int :=
  let ta := lastAtOrZero a
  let tb := lastAtOrZero b
  tb - ta

/-- The `onValue` listener of `subscribeToUsers`: the array it passes to
`callback` for a snapshot. -/
def subscribeToUsers (snap : Option (Obj SummaryBody)) : List Summary :=
  let val := snap.getD []
  let arr := val.map toSummary
  jsSort summaryCmp arr

/-- The time a summary is ordered by, in the words of the specification: its
`lastMessageAt` once that has resolved to a number, epoch 0 before. -/
def sortTime : Timestamp → Int
  | .resolved ms => ms
  | .pending => 0

/-! ## AdminInbox.js: the operator view as a state machine -/

/-- One call of `subscribeToMessages` made by the operator view.  The cancel
function it returned is identified by `handle`; the other fields are what the
callback closure captured. -/
structure Subscription where
  handle : Nat
  userId : String
  /-- Captured `u.name`. -/
  uname : Option String
  /-- Captured `active?.userId`. -/
  activeId : Option String
  deriving DecidableEq, Repr

/-- What the view did to the store's thread subscriptions, in order. -/
inductive SubEvent where
  | opened (handle : Nat) (userId : String)
  | cancelled (handle : Nat)
  deriving DecidableEq, Repr

/-- The state of `AdminInbox` that the subscription logic touches. -/
structure View where
  /-- State `users`, the latest roster. -/
  users : List Summary
  /-- State `active`. -/
  active : Option Summary
  /-- State `unread`. -/
  unread : Obj Nat
  /-- Ref `lastSeenMsgIdByUserRef.current`. -/
  lastSeen : Obj String
  /-- Ref `unsubByUserRef.current`. -/
  unsubByUser : Obj Subscription
  /-- Whether the last run of the roster effect returned its cleanup function
  and React has not run it yet. -/
  rosterCleanup : Bool
  /-- The cancel function returned by the last run of the active-thread effect
  and not run yet: its handle and its conversation. -/
  activeUnsub : Option (Nat × String)
  /-- The listeners attached to message paths of the store, oldest first:
  handle of the subscription and conversation id. -/
  live : List (Nat × String)
  /-- The next fresh handle. -/
  nextHandle : Nat
  /-- Every open and cancel so far, oldest first. -/
  log : List SubEvent
  /-- Every call of `showDesktopNotification` by a tracker handler, oldest first. -/
  requests : List NotifyRequest
  deriving DecidableEq, Repr

/-- The view right after mounting: empty roster, nothing active. -/
def View.init : View :=
  { users := [], active := none, unread := [], lastSeen := [], unsubByUser := [],
    rosterCleanup := false, activeUnsub := none, live := [], nextHandle := 0,
    log := [], requests := [] }

/-- Expression `active?.userId`. -/
def activeUserId (v : View) : Option String :=
  v.active.map (fun a => a.userId)

/-- Calling the cancel function `() => { off(msgsRef); unsub(); }` of the
subscription with handle `h` to conversation `userId`: `off(msgsRef)` carries
no callback, so it detaches every listener on that conversation's message
path; `unsub()` detaches the listener of this subscription. -/
def cancelSub (v : View) (h : Nat) (userId : String) : View :=
  { v with
    live := v.live.filter (fun p => decide (p.2 ≠ userId) && decide (p.1 ≠ h)),
    log := v.log ++ [SubEvent.cancelled h] }

/-- A call `subscribeToMessages(userId, ..)`: the new state and the handle of
the cancel function it returns. -/
def openSub (v : View) (userId : String) : View × Nat :=
  ({ v with live := v.live ++ [(v.nextHandle, userId)],
            nextHandle := v.nextHandle + 1,
            log := v.log ++ [SubEvent.opened v.nextHandle userId] }, v.nextHandle)

/-- Body of the `forEach` over `Object.keys(unsubByUserRef.current)` in the
roster effect ("cleanup removed users subscriptions"). -/
def dropRemoved (currentIds : List String) (v : View) (uid : String) : View :=
  if currentIds.contains uid then v
  else
    let v1 := match objGet v.unsubByUser uid with
      | some s => cancelSub v s.handle s.userId
      | none => v
    { v1 with unsubByUser := objDel v1.unsubByUser uid, lastSeen := objDel v1.lastSeen uid }

/-- Body of `users.forEach` in the roster effect ("subscribe to new users
threads"). -/
def subscribeUser (v : View) (u : Summary) : View :=
  let userId := u.userId
  -- `if (unsubByUserRef.current[userId]) return;`
  if plainHas v.unsubByUser userId then v
  else
    let r := openSub v userId
    let sub : Subscription := ⟨r.2, userId, u.name, activeUserId v⟩
    { r.1 with unsubByUser := objSet r.1.unsubByUser userId sub }

/-- The body of the roster effect (`useEffect(.., [users, active?.userId])`). -/
def rosterBody (v : View) : View :=
  if v.users.length = 0 then { v with rosterCleanup := false }
  else
    let currentIds := v.users.map (fun u => u.userId)
    let v1 := (objKeys v.unsubByUser).foldl (dropRemoved currentIds) v
    let v2 := v.users.foldl subscribeUser v1
    { v2 with rosterCleanup := true }

/-- The cleanup function the roster effect returns. -/
def rosterCleanupFn (v : View) : View :=
  let v1 := (objValues v.unsubByUser).foldl (fun w s => cancelSub w s.handle s.userId) v
  { v1 with unsubByUser := [] }

/-- React running the cleanup of the previous run of the roster effect, when
that run returned one. -/
def runRosterCleanup (v : View) : View :=
  if v.rosterCleanup then { rosterCleanupFn v with rosterCleanup := false } else v

/-- One re-run of the roster effect: previous cleanup, then body. -/
def rosterEffect (v : View) : View :=
  rosterBody (runRosterCleanup v)

/-- The body of the active-thread effect (`useEffect(.., [active?.userId])`). -/
def activeBody (v : View) : View :=
  match v.active with
  | some a =>
    if truthy a.userId then
      let r := openSub v a.userId
      { r.1 with activeUnsub := some (r.2, a.userId) }
    else { v with activeUnsub := none }
  | none => { v with activeUnsub := none }

/-- React running the cleanup of the previous run of the active-thread effect. -/
def runActiveCleanup (v : View) : View :=
  match v.activeUnsub with
  | some c => { cancelSub v c.1 c.2 with activeUnsub := none }
  | none => v

/-- A render in which `active?.userId` may have changed from `old`: React runs
the cleanups of both effects, then both bodies, in declaration order; nothing
runs when the dependency is unchanged. -/
def afterActiveChange (old : Option String) (v : View) : View :=
  if activeUserId v = old then v
  else rosterBody (activeBody (runRosterCleanup (runActiveCleanup v)))

/-- Function `setUsers` called by the Roster Stream with a fresh array. -/
def setUsers (v : View) (us : List Summary) : View :=
  rosterEffect { v with users := us }

/-- Function `openThread`. -/
def openThread (v : View) (u : Summary) : View :=
  let v1 : View := { v with active := some u }
  let v2 : View := { v1 with unread := objSet v1.unread u.userId 0 }
  afterActiveChange (activeUserId v) v2

/-- The part of `confirmDelete` after `deleteUserThread(uid)` has resolved. -/
def confirmDeleteDone (v : View) (uid : String) : View :=
  let v1 : View := { v with active := none }
  let v2 : View := { v1 with unread := objDel v1.unread uid }
  afterActiveChange (activeUserId v) v2

/-- A Thread Stream emission reaching the tracker handler registered for
`userId`, if there is one and its listener is still attached. -/
def threadEmit (v : View) (env : NotifyEnv) (userId : String) (thread : List Message) : View :=
  match objGet v.unsubByUser userId with
  | none => v
  | some s =>
    if v.live.contains (s.handle, s.userId) then
      let r := trackerHandler env s.userId s.uname s.activeId ⟨v.lastSeen, v.unread⟩ thread
      { v with lastSeen := r.tracker.lastSeen, unread := r.tracker.unread,
               requests := v.requests ++ r.requested.toList }
    else v

/-- What can happen to the operator view. -/
inductive Event where
  | roster (us : List Summary)
  | openThread (u : Summary)
  | deleted (uid : String)
  | thread (env : NotifyEnv) (userId : String) (msgs : List Message)
  deriving DecidableEq, Repr

/-- One step of the operator view. -/
def step (v : View) : Event → View
  | .roster us => setUsers v us
  | .openThread u => openThread v u
  | .deleted uid => confirmDeleteDone v uid
  | .thread env userId msgs => threadEmit v env userId msgs

/-- The view after a sequence of events. -/
def exec (v : View) (evs : List Event) : View :=
  evs.foldl step v

/-! ## Runs of the tracker handler -/

/-- One Thread Stream emission as the handler of a conversation sees it: what
the browser reports, the `active?.userId` of its closure, and the array. -/
structure Delivery where
  env : NotifyEnv
  activeId : Option String
  thread : List Message
  deriving DecidableEq, Repr

/-- The tracker after the handler of `userId` has handled the deliveries in
order. -/
def runTracker (userId : String) (uname : Option String) : Tracker → List Delivery → Tracker
  | t, [] => t
  | t, d :: ds =>
    runTracker userId uname (trackerHandler d.env userId uname d.activeId t d.thread).tracker ds

/-- The id the last element of an emission carries, when it carries one. -/
def trailingId (thread : List Message) : Option String :=
  match thread.getLast? with
  | some last => if truthy last.id then some last.id else none
  | none => none

/-- The baseline after an emission has been observed: its trailing id if it
has one, the previous baseline otherwise. -/
def nextBaseline (base : Option String) (thread : List Message) : Option String :=
  match trailingId thread with
  | some i => some i
  | none => base

/-- Whether an emission brings a new trailing visitor message for `userId`:
a baseline is established, the trailing id differs from it, the trailing
message is visitor-authored and the conversation is not the active one. -/
def isNewVisitorTrail (userId : String) (base : Option String) (d : Delivery) : Bool :=
  match d.thread.getLast? with
  | none => false
  | some last =>
    truthy last.id && truthyOpt base && decide (base ≠ some last.id) &&
      decide (last.sender = "user") && decide (d.activeId ≠ some userId)

/-- The number of new trailing visitor messages in a run of emissions that
starts from baseline `base`. -/
def newVisitorTrails (userId : String) : Option String → List Delivery → Nat
  | _, [] => 0
  | base, d :: ds =>
    (if isNewVisitorTrail userId base d then 1 else 0) +
      newVisitorTrails userId (nextBaseline base d.thread) ds

/-- The trailing ids at which a run of emissions raised the counter, in
order. -/
def countedIds (userId : String) : Option String → List Delivery → List String
  | _, [] => []
  | base, d :: ds =>
    (if isNewVisitorTrail userId base d then (trailingId d.thread).toList else []) ++
      countedIds userId (nextBaseline base d.thread) ds

/-- Whether the trailing ids of a run, starting from baseline `base`, never go
down in JavaScript string order (the store appends messages under increasing
ids). -/
def trailingAscending : Option String → List Delivery → Bool
  | _, [] => true
  | base, d :: ds =>
    (match base, trailingId d.thread with
      | some b, some i => !jsGt b i
      | _, _ => true) &&
      trailingAscending (nextBaseline base d.thread) ds

/-! ## Invariants of the operator view -/

/-- Handle and conversation of every tracker subscription in `unsubByUserRef`. -/
def trackerLive (v : View) : List (Nat × String) :=
  (objValues v.unsubByUser).map (fun s => (s.handle, s.userId))

/-- Bookkeeping that holds between any two steps of the effects: every
attached listener belongs to a tracker subscription or to the active-thread
one, handles are distinct and below the next fresh handle, `unsubByUserRef`
has one entry per key, filed under its own conversation, and the handle of
the active-thread subscription is none of the tracker handles. -/
structure Core (v : View) : Prop where
  bound : ∀ p ∈ v.live, p ∈ trackerLive v ∨ p ∈ v.activeUnsub.toList
  nodup : (v.live.map Prod.fst).Nodup
  fresh : ∀ p ∈ v.live, p.1 < v.nextHandle
  keys : (objKeys v.unsubByUser).Nodup
  own : ∀ p ∈ v.unsubByUser, p.2.userId = p.1
  afresh : ∀ c ∈ v.activeUnsub.toList, c.1 < v.nextHandle
  apart : ∀ c ∈ v.activeUnsub.toList, c.1 ∉ (trackerLive v).map Prod.fst

/-- Whether the listener of the active-thread effect is still attached. -/
def activeAttached (v : View) : Bool :=
  match v.activeUnsub with
  | some c => v.live.contains c
  | none => false

/-- What holds once React has run the effects of a render: `Core`, no pending
roster cleanup only when nothing is subscribed, every tracker listener
attached, tracker subscriptions exactly for the roster ids that are not names
of inherited members, every closure
holding the current `active?.userId`, and the active-thread subscription
bound to the active conversation. -/
structure Settled (v : View) : Prop where
  core : Core v
  attached : ∀ p ∈ trackerLive v, p ∈ v.live
  cleanup : v.rosterCleanup = false → v.unsubByUser = []
  roster : ∀ uid, uid ∈ objKeys v.unsubByUser ↔
    uid ∈ v.users.map (fun u => u.userId) ∧ isInherited uid = false
  closure : ∀ p ∈ v.unsubByUser, p.2.activeId = activeUserId v
  active : v.activeUnsub.map Prod.snd = (activeUserId v).filter truthy

/-- What holds while the roster effect, started in `v₀` with nothing
subscribed, walks through `users.forEach`: `done` are the ids handled so far. -/
structure Subscribing (v₀ : View) (done : List String) (w : View) : Prop where
  core : Core w
  attached : ∀ p ∈ trackerLive w, p ∈ w.live
  keys : ∀ uid, uid ∈ objKeys w.unsubByUser ↔ uid ∈ done ∧ isInherited uid = false
  closure : ∀ p ∈ w.unsubByUser, p.2.activeId = activeUserId v₀ ∧ v₀.nextHandle ≤ p.2.handle
  users : w.users = v₀.users
  active : w.active = v₀.active
  unread : w.unread = v₀.unread
  lastSeen : w.lastSeen = v₀.lastSeen
  activeUnsub : w.activeUnsub = v₀.activeUnsub
  requests : w.requests = v₀.requests
  next : v₀.nextHandle ≤ w.nextHandle
  liveOld : ∀ p ∈ w.live, p ∈ v₀.live ∨ v₀.nextHandle ≤ p.1
  liveKeep : ∀ p ∈ v₀.live, p ∈ w.live
  logOld : ∀ e ∈ v₀.log, e ∈ w.log

/-! ## SupportChatWidget.js: the visitor's notification effect -/

/-- What one run of the notify effect of `SupportChatHome` leaves behind. -/
structure VisitorResult where
  /-- Ref `lastNotifiedIdRef.current`; `none` is `null`. -/
  lastNotifiedId : Option String
  /-- The call of `showDesktopNotification` it made, if any. -/
  requested : Option NotifyRequest
  /-- The `Notification` that call constructed, if any. -/
  shown : Option NotifyRequest
  deriving DecidableEq, Repr

/-- The notify effect of `SupportChatHome` (`useEffect(.., [messages, isNamed])`),
run with the given `isNamed`, `lastNotifiedIdRef.current` and `messages`. -/
def visitorNotifyEffect (env : NotifyEnv) (isNamed : Bool) (lastNotifiedId : Option String)
    (messages : List Message) : VisitorResult :=
  if !isNamed then ⟨lastNotifiedId, none, none⟩
  else
    match messages.getLast? with
    | none => ⟨lastNotifiedId, none, none⟩
    | some last =>
      -- only notify admin messages
      if last.sender ≠ "admin" then ⟨lastNotifiedId, none, none⟩
      -- only notify if new message not already notified
      else if lastNotifiedId = some last.id then ⟨lastNotifiedId, none, none⟩
      -- only notify when tab is not visible
      else if env.visible then ⟨some last.id, none, none⟩
      else
        let req : NotifyRequest := ⟨"Agent replied", textOrDefault last.text⟩
        ⟨some last.id, some req, (showDesktopNotification env req).1⟩

/-- One run of the visitor's notify effect: what the browser reports, `isNamed`
and `messages`. -/
structure VisitorRun where
  env : NotifyEnv
  isNamed : Bool
  messages : List Message
  deriving DecidableEq, Repr

/-- The ids for which successive runs of the visitor's notify effect requested
a notification, in order, starting from `lastNotifiedIdRef.current = ref`. -/
def visitorNotifiedIds : Option String → List VisitorRun → List String
  | _, [] => []
  | ref, r :: rs =>
    (match (visitorNotifyEffect r.env r.isNamed ref r.messages).requested with
      | some _ => (r.messages.getLast?.map (fun m => m.id)).toList
      | none => []) ++
      visitorNotifiedIds (visitorNotifyEffect r.env r.isNamed ref r.messages).lastNotifiedId rs

/-- Whether, along the runs, the id of the last message is never below the id
recorded in `lastNotifiedIdRef` at that moment, in JavaScript string order
(the store appends messages under increasing ids). -/
def visitorAscending : Option String → List VisitorRun → Bool
  | _, [] => true
  | ref, r :: rs =>
    (match ref, r.messages.getLast? with
      | some x, some last => !jsGt x last.id
      | _, _ => true) &&
      visitorAscending (visitorNotifyEffect r.env r.isNamed ref r.messages).lastNotifiedId rs

/-! ## chatStore.js: deleting a thread -/

/-- The part of the realtime database the chat uses. -/
structure Store where
  /-- Path `support/messages`: one message collection per conversation id. -/
  messages : Obj (Obj MessageBody)
  /-- Path `support/users`: one summary per conversation id. -/
  users : Obj SummaryBody
  deriving DecidableEq, Repr

/-- Call `remove(ref(db, "support/messages/" + uid))`. -/
def removeMessages (s : Store) (uid : String) : Store :=
  { s with messages := objDel s.messages uid }

/-- Call `remove(ref(db, "support/users/" + uid))`. -/
def removeSummary (s : Store) (uid : String) : Store :=
  { s with users := objDel s.users uid }

/-- Function `deleteUserThread`.  `ok₁` and `ok₂` say whether the first and
the second awaited `remove` resolve; a `remove` that does not resolve changes
nothing and ends the function.  The result is the store and whether the
function completed. -/
def deleteUserThread (s : Store) (userId : String) (ok₁ ok₂ : Bool) : Store × Bool :=
  let uid := userId
  if !ok₁ then (s, false)
  else
    let s₁ := removeMessages s uid
    if !ok₂ then (s₁, false)
    else (removeSummary s₁ uid, true)

/-! ## AdminInbox.js: the roster cleanup when cancel functions may throw -/

/-- The statement `try { fn?.(); } catch {}` for the cancel function of `sub`:
the call is made and logged; when it throws (`throws sub.handle`) it is taken
to have detached nothing, and the exception is swallowed. -/
def tryCancel (throws : Nat → Bool) (v : View) (sub : Subscription) : View :=
  if throws sub.handle then { v with log := v.log ++ [SubEvent.cancelled sub.handle] }
  else cancelSub v sub.handle sub.userId

/-- The cleanup function the roster effect returns, with cancel functions that
may throw. -/
def rosterCleanupTry (throws : Nat → Bool) (v : View) : View :=
  let v1 := (objValues v.unsubByUser).foldl (tryCancel throws) v
  { v1 with unsubByUser := [] }

/-! ## Sample data -/

/-- A browser with notifications granted and the tab in the background. -/
def envHidden : NotifyEnv := ⟨true, "granted", false, false⟩

/-- Roster entry for conversation `A`. -/
def userA : Summary := ⟨"A", some "Ann", some "hello", .resolved 10⟩

/-- Roster entry for a conversation whose id is `constructor`. -/
def userConstructor : Summary := ⟨"constructor", some "Carl", none, .pending⟩

/-- Roster entry for conversation `B`. -/
def userB : Summary := ⟨"B", none, none, .pending⟩

/-- Visitor message `m1`. -/
def m1 : Message := ⟨"m1", "hello", "user", .resolved 10⟩

/-- Visitor message `m2`. -/
def m2 : Message := ⟨"m2", "anyone there?", "user", .pending⟩

/-- Visitor message `m3`. -/
def m3 : Message := ⟨"m3", "please answer", "user", .pending⟩

/-- Operator message `a1`. -/
def a1 : Message := ⟨"a1", "how can I help?", "admin", .resolved 20⟩

/-- A store holding conversations `A` (two messages) and `B` (one message). -/
def sampleStore : Store :=
  { messages :=
      [("A", [("m1", ⟨"hello", "user", .resolved 10⟩), ("a1", ⟨"hi", "admin", .pending⟩)]),
       ("B", [("m9", ⟨"ping", "user", .pending⟩)])],
    users := [("A", ⟨some "Ann", some "hi", .pending⟩), ("B", ⟨none, some "ping", .pending⟩)] }

/-- A tracker with baseline `m1` for conversation `A` and no unread entry. -/
def trackerAtM1 : Tracker := ⟨[("A", "m1")], []⟩

/-- A snapshot of a thread whose keys arrive out of order, one with a
resolved timestamp and two without. -/
def sampleThread : Obj MessageBody :=
  [("m3", ⟨"please answer", "user", .pending⟩),
   ("m1", ⟨"hello", "user", .resolved 10⟩),
   ("m2", ⟨"hi, how can I help?", "admin", .pending⟩)]

/-- A snapshot of the summary collection: one summary whose `lastAt` has not
resolved, two with numbers, out of order. -/
def sampleRoster : Obj SummaryBody :=
  [("P", ⟨some "Pat", some "typing", .pending⟩),
   ("B", ⟨none, some "ping", .resolved 5⟩),
   ("A", ⟨some "Ann", some "hello", .resolved 9⟩)]

/-- The view with roster `[A]` in which the tracker of `A` has seen `m1` and
then the new visitor message `m2`: `A` has a subscription, a baseline and an
unread count. -/
def viewWithUnreadA : View :=
  exec View.init
    [.roster [userA], .thread envHidden "A" [m1], .thread envHidden "A" [m1, m2]]

/-! ## Lemmas on objects -/

theorem objGet_objSet_same {β : Type} (o : Obj β) (k : String) (v : β) :
    objGet (objSet o k v) k = some v := by
  induction o with
  | nil => simp [objSet, objGet]
  | cons p rest ih =>
    obtain ⟨k', v'⟩ := p
    by_cases h : k' = k
    · simp [objSet, objGet, h]
    · simp [objSet, objGet, h, ih]

theorem objGet_objSet_ne {β : Type} (o : Obj β) (k k' : String) (v : β) (h : k' ≠ k) :
    objGet (objSet o k v) k' = objGet o k' := by
  induction o with
  | nil => simp [objSet, objGet, Ne.symm h]
  | cons p rest ih =>
    obtain ⟨k₀, v₀⟩ := p
    by_cases h₀ : k₀ = k
    · subst h₀
      simp [objSet, objGet, Ne.symm h]
    · by_cases h₁ : k₀ = k'
      · subst h₁
        simp [objSet, objGet, h₀]
      · simp [objSet, objGet, h₀, h₁, ih]

theorem objGet_objDel_same {β : Type} (o : Obj β) (k : String) :
    objGet (objDel o k) k = none := by
  induction o with
  | nil => simp [objDel, objGet]
  | cons p rest ih =>
    obtain ⟨k', v'⟩ := p
    by_cases h : k' = k
    · simpa [objDel, h] using ih
    · simpa [objDel, objGet, h] using ih

theorem objGet_objDel_ne {β : Type} (o : Obj β) (k k' : String) (h : k' ≠ k) :
    objGet (objDel o k) k' = objGet o k' := by
  induction o with
  | nil => simp [objDel, objGet]
  | cons p rest ih =>
    obtain ⟨k₀, v₀⟩ := p
    by_cases h₀ : k₀ = k
    · subst h₀
      have : ¬ k₀ = k' := fun e => h e.symm
      simpa [objDel, objGet, this] using ih
    · by_cases h₁ : k₀ = k'
      · subst h₁
        simp [objDel, objGet, h₀]
      · simpa [objDel, objGet, h₀, h₁] using ih

/-! ## The branches of the tracker handler -/

theorem trackerHandler_empty (env : NotifyEnv) (userId : String)
    (uname : Option String) (activeId : Option String) (t : Tracker) (thread : List Message)
    (h : thread.getLast? = none) :
    trackerHandler env userId uname activeId t thread = ⟨t, none, none⟩ := by
  simp [trackerHandler, h]

theorem trackerHandler_noId (env : NotifyEnv) (userId : String)
    (uname : Option String) (activeId : Option String) (t : Tracker) (thread : List Message)
    (last : Message) (h : thread.getLast? = some last) (hid : truthy last.id = false) :
    trackerHandler env userId uname activeId t thread = ⟨t, none, none⟩ := by
  simp [trackerHandler, h, hid]

theorem trackerHandler_first (env : NotifyEnv) (userId : String)
    (uname : Option String) (activeId : Option String) (t : Tracker) (thread : List Message)
    (last : Message) (h : thread.getLast? = some last) (hid : truthy last.id = true)
    (hp : truthyOpt (objGet t.lastSeen userId) = false) :
    trackerHandler env userId uname activeId t thread =
      ⟨{ t with lastSeen := objSet t.lastSeen userId last.id }, none, none⟩ := by
  simp [trackerHandler, h, hid, hp]

theorem trackerHandler_same (env : NotifyEnv) (userId : String)
    (uname : Option String) (activeId : Option String) (t : Tracker) (thread : List Message)
    (last : Message) (h : thread.getLast? = some last) (hid : truthy last.id = true)
    (hp : objGet t.lastSeen userId = some last.id) :
    trackerHandler env userId uname activeId t thread = ⟨t, none, none⟩ := by
  simp [trackerHandler, h, hid, hp, truthyOpt]

theorem trackerHandler_notUser (env : NotifyEnv) (userId : String)
    (uname : Option String) (activeId : Option String) (t : Tracker) (thread : List Message)
    (last : Message) (h : thread.getLast? = some last) (hid : truthy last.id = true)
    (hp : truthyOpt (objGet t.lastSeen userId) = true)
    (hne : objGet t.lastSeen userId ≠ some last.id) (hs : last.sender ≠ "user") :
    trackerHandler env userId uname activeId t thread =
      ⟨{ t with lastSeen := objSet t.lastSeen userId last.id }, none, none⟩ := by
  simp [trackerHandler, h, hid, hp, hne, hs]

theorem trackerHandler_active (env : NotifyEnv) (userId : String)
    (uname : Option String) (activeId : Option String) (t : Tracker) (thread : List Message)
    (last : Message) (h : thread.getLast? = some last) (hid : truthy last.id = true)
    (hp : truthyOpt (objGet t.lastSeen userId) = true)
    (hne : objGet t.lastSeen userId ≠ some last.id) (hs : last.sender = "user")
    (ha : activeId = some userId) :
    trackerHandler env userId uname activeId t thread =
      ⟨{ t with lastSeen := objSet t.lastSeen userId last.id }, none, none⟩ := by
  simp [trackerHandler, h, hid, hp, hne, hs, ha]

theorem trackerHandler_counted (env : NotifyEnv) (userId : String)
    (uname : Option String) (activeId : Option String) (t : Tracker) (thread : List Message)
    (last : Message) (h : thread.getLast? = some last) (hid : truthy last.id = true)
    (hp : truthyOpt (objGet t.lastSeen userId) = true)
    (hne : objGet t.lastSeen userId ≠ some last.id) (hs : last.sender = "user")
    (ha : activeId ≠ some userId) :
    trackerHandler env userId uname activeId t thread =
      ⟨{ lastSeen := objSet t.lastSeen userId last.id,
         unread := objSet t.unread userId (unreadOf t.unread userId + 1) },
       if env.visible then none
        else some ⟨"New message from " ++ nameOrUser uname, textOrDefault last.text⟩,
       if env.visible then none
        else (showDesktopNotification env
          ⟨"New message from " ++ nameOrUser uname, textOrDefault last.text⟩).1⟩ := by
  cases hv : env.visible <;> simp [trackerHandler, h, hid, hp, hne, hs, ha, hv]

/-! ## What one run of the handler does to baseline and counters -/

/-- The baseline the handler leaves for its conversation. -/
theorem trackerHandler_lastSeen (env : NotifyEnv) (userId : String)
    (uname : Option String) (activeId : Option String) (t : Tracker) (thread : List Message) :
    objGet (trackerHandler env userId uname activeId t thread).tracker.lastSeen userId =
      nextBaseline (objGet t.lastSeen userId) thread := by
  cases hl : thread.getLast? with
  | none =>
    rw [trackerHandler_empty env userId uname activeId t thread hl]
    simp [nextBaseline, trailingId, hl]
  | some last =>
    cases hid : truthy last.id with
    | false =>
      rw [trackerHandler_noId env userId uname activeId t thread last hl hid]
      simp [nextBaseline, trailingId, hl, hid]
    | true =>
      have hnb : nextBaseline (objGet t.lastSeen userId) thread = some last.id := by
        simp [nextBaseline, trailingId, hl, hid]
      rw [hnb]
      cases hp : truthyOpt (objGet t.lastSeen userId) with
      | false =>
        rw [trackerHandler_first env userId uname activeId t thread last hl hid hp]
        exact objGet_objSet_same _ _ _
      | true =>
        by_cases hne : objGet t.lastSeen userId = some last.id
        · rw [trackerHandler_same env userId uname activeId t thread last hl hid hne]
          exact hne
        · by_cases hs : last.sender = "user"
          · by_cases ha : activeId = some userId
            · rw [trackerHandler_active env userId uname activeId t thread last hl hid hp hne hs ha]
              exact objGet_objSet_same _ _ _
            · rw [trackerHandler_counted env userId uname activeId t thread last hl hid hp hne hs ha]
              exact objGet_objSet_same _ _ _
          · rw [trackerHandler_notUser env userId uname activeId t thread last hl hid hp hne hs]
            exact objGet_objSet_same _ _ _

/-- The unread counter the handler leaves for its conversation. -/
theorem trackerHandler_unread (env : NotifyEnv) (userId : String)
    (uname : Option String) (activeId : Option String) (t : Tracker) (thread : List Message) :
    unreadOf (trackerHandler env userId uname activeId t thread).tracker.unread userId =
      unreadOf t.unread userId +
        (if isNewVisitorTrail userId (objGet t.lastSeen userId) ⟨env, activeId, thread⟩
          then 1 else 0) := by
  cases hl : thread.getLast? with
  | none =>
    rw [trackerHandler_empty env userId uname activeId t thread hl]
    simp [isNewVisitorTrail, hl]
  | some last =>
    cases hid : truthy last.id with
    | false =>
      rw [trackerHandler_noId env userId uname activeId t thread last hl hid]
      simp [isNewVisitorTrail, hl, hid]
    | true =>
      cases hp : truthyOpt (objGet t.lastSeen userId) with
      | false =>
        rw [trackerHandler_first env userId uname activeId t thread last hl hid hp]
        simp [isNewVisitorTrail, hl, hid, hp]
      | true =>
        by_cases hne : objGet t.lastSeen userId = some last.id
        · rw [trackerHandler_same env userId uname activeId t thread last hl hid hne]
          simp [isNewVisitorTrail, hl, hid, hp, hne]
        · by_cases hs : last.sender = "user"
          · by_cases ha : activeId = some userId
            · rw [trackerHandler_active env userId uname activeId t thread last hl hid hp hne hs ha]
              simp [isNewVisitorTrail, hl, hid, hp, hne, hs, ha]
            · rw [trackerHandler_counted env userId uname activeId t thread last hl hid hp hne hs ha]
              simp [isNewVisitorTrail, hl, hid, hp, hne, hs, ha, unreadOf, objGet_objSet_same]
          · rw [trackerHandler_notUser env userId uname activeId t thread last hl hid hp hne hs]
            simp [isNewVisitorTrail, hl, hid, hp, hne, hs]

/-- The handler leaves the counters of the other conversations alone. -/
theorem trackerHandler_unread_other (env : NotifyEnv) (userId : String)
    (uname : Option String) (activeId : Option String) (t : Tracker) (thread : List Message)
    (other : String) (h : other ≠ userId) :
    objGet (trackerHandler env userId uname activeId t thread).tracker.unread other =
      objGet t.unread other := by
  cases hl : thread.getLast? with
  | none => rw [trackerHandler_empty env userId uname activeId t thread hl]
  | some last =>
    cases hid : truthy last.id with
    | false => rw [trackerHandler_noId env userId uname activeId t thread last hl hid]
    | true =>
      cases hp : truthyOpt (objGet t.lastSeen userId) with
      | false => rw [trackerHandler_first env userId uname activeId t thread last hl hid hp]
      | true =>
        by_cases hne : objGet t.lastSeen userId = some last.id
        · rw [trackerHandler_same env userId uname activeId t thread last hl hid hne]
        · by_cases hs : last.sender = "user"
          · by_cases ha : activeId = some userId
            · rw [trackerHandler_active env userId uname activeId t thread last hl hid hp hne hs ha]
            · rw [trackerHandler_counted env userId uname activeId t thread last hl hid hp hne hs ha]
              exact objGet_objSet_ne _ _ _ _ h
          · rw [trackerHandler_notUser env userId uname activeId t thread last hl hid hp hne hs]

/-- A run of the handler: the counter grows by the number of new trailing
visitor messages. -/
theorem runTracker_unread (userId : String) (uname : Option String) (ds : List Delivery) :
    ∀ t : Tracker,
      unreadOf (runTracker userId uname t ds).unread userId =
        unreadOf t.unread userId + newVisitorTrails userId (objGet t.lastSeen userId) ds := by
  induction ds with
  | nil => intro t; simp [runTracker, newVisitorTrails]
  | cons d ds ih =>
    intro t
    obtain ⟨env, act, th⟩ := d
    simp only [runTracker, newVisitorTrails]
    rw [ih, trackerHandler_unread, trackerHandler_lastSeen]
    omega

/-! ## JavaScript string order -/

theorem char_eq_of_toNat {c d : Char} (h : c.toNat = d.toNat) : c = d :=
  Char.ext (UInt32.ext h)

theorem char_toNat_valid (c : Char) :
    c.toNat < 0xD800 ∨ (0xDFFF < c.toNat ∧ c.toNat < 0x110000) := by
  have h := c.valid
  simpa [UInt32.isValidChar, Nat.isValidChar, Char.toNat] using h

theorem charUnits_append_inj {c d : Char} {x y : List Nat}
    (h : charUnits c ++ x = charUnits d ++ y) : c = d ∧ x = y := by
  have hc := char_toNat_valid c
  have hd := char_toNat_valid d
  unfold charUnits at h
  split at h <;> split at h
  · simp at h
    exact ⟨char_eq_of_toNat h.1, h.2⟩
  · simp at h
    omega
  · simp at h
    omega
  · simp at h
    refine ⟨char_eq_of_toNat ?_, h.2.2⟩
    omega

theorem charUnits_ne_nil (c : Char) : charUnits c ≠ [] := by
  unfold charUnits; split <;> simp

theorem unitsOf_injective : ∀ cs ds : List Char, unitsOf cs = unitsOf ds → cs = ds
  | [], [], _ => rfl
  | [], d :: ds, h => by
    simp [unitsOf, charUnits_ne_nil] at h
  | c :: cs, [], h => by
    simp [unitsOf, charUnits_ne_nil] at h
  | c :: cs, d :: ds, h => by
    obtain ⟨h1, h2⟩ := charUnits_append_inj (by simpa [unitsOf] using h)
    rw [h1, unitsOf_injective cs ds h2]

theorem utf16_injective {a b : String} (h : utf16 a = utf16 b) : a = b :=
  String.ext (unitsOf_injective _ _ h)

theorem unitsLt_irrefl : ∀ a : List Nat, unitsLt a a = false
  | [] => rfl
  | x :: xs => by simp [unitsLt, unitsLt_irrefl xs]

theorem unitsLt_trans : ∀ a b c : List Nat, unitsLt a b = true → unitsLt b c = true → unitsLt a c = true
  | _, [], _, h, _ => by cases ‹List Nat› <;> simp [unitsLt] at h
  | _, _ :: _, [], _, h => by simp [unitsLt] at h
  | [], _ :: _, _ :: _, _, _ => by simp [unitsLt]
  | x :: xs, y :: ys, z :: zs, h₁, h₂ => by
    simp only [unitsLt, Bool.or_eq_true, Bool.and_eq_true, decide_eq_true_eq] at h₁ h₂ ⊢
    rcases h₁ with h₁ | ⟨e₁, h₁⟩ <;> rcases h₂ with h₂ | ⟨e₂, h₂⟩
    · left; omega
    · left; omega
    · left; omega
    · right; exact ⟨by omega, unitsLt_trans xs ys zs h₁ h₂⟩

theorem unitsLt_total : ∀ a b : List Nat, unitsLt a b = true ∨ a = b ∨ unitsLt b a = true
  | [], [] => Or.inr (Or.inl rfl)
  | [], _ :: _ => Or.inl rfl
  | _ :: _, [] => Or.inr (Or.inr rfl)
  | x :: xs, y :: ys => by
    simp only [unitsLt, Bool.or_eq_true, Bool.and_eq_true, decide_eq_true_eq, List.cons.injEq]
    rcases Nat.lt_trichotomy x y with h | h | h
    · left; left; exact h
    · rcases unitsLt_total xs ys with h' | h' | h'
      · left; right; exact ⟨h, h'⟩
      · right; left; exact ⟨h, h'⟩
      · right; right; right; exact ⟨h.symm, h'⟩
    · right; right; left; exact h

/-- On strings, "not greater" in both directions means equal. -/
theorem jsGt_of_ne_of_not_jsGt {a b : String} (hne : a ≠ b) (h : jsGt a b = false) :
    jsGt b a = true := by
  unfold jsGt at *
  rcases unitsLt_total (utf16 a) (utf16 b) with h' | h' | h'
  · exact h'
  · exact absurd (utf16_injective h') hne
  · rw [h'] at h; cases h

/-! ## Sorting lemmas -/

theorem messageCmp_le_iff (a b : Message) : messageCmp a b ≤ 0 ↔ jsGt a.id b.id = false := by
  unfold messageCmp
  cases jsGt a.id b.id <;> simp

theorem messageCmp_total (a b : Message) : messageCmp a b ≤ 0 ∨ messageCmp b a ≤ 0 := by
  rw [messageCmp_le_iff, messageCmp_le_iff]
  unfold jsGt
  cases h₁ : unitsLt (utf16 b.id) (utf16 a.id) with
  | false => exact Or.inl rfl
  | true =>
    right
    cases h₂ : unitsLt (utf16 a.id) (utf16 b.id) with
    | false => rfl
    | true =>
      have := unitsLt_trans _ _ _ h₁ h₂
      rw [unitsLt_irrefl] at this
      cases this

theorem messageCmp_trans (a b c : Message) (h₁ : messageCmp a b ≤ 0) (h₂ : messageCmp b c ≤ 0) :
    messageCmp a c ≤ 0 := by
  rw [messageCmp_le_iff] at *
  unfold jsGt at *
  cases h : unitsLt (utf16 c.id) (utf16 a.id) with
  | false => rfl
  | true =>
    rcases unitsLt_total (utf16 a.id) (utf16 b.id) with h' | h' | h'
    · rw [unitsLt_trans _ _ _ h h'] at h₂; cases h₂
    · rw [← h', h] at h₂; cases h₂
    · rw [h'] at h₁; cases h₁

theorem summaryCmp_le_iff (a b : Summary) :
    summaryCmp a b ≤ 0 ↔ lastAtOrZero b ≤ lastAtOrZero a := by
  show lastAtOrZero b - lastAtOrZero a ≤ 0 ↔ _
  omega

theorem jsSort_perm {α : Type} (cmp : α → α → Int) (l : List α) : (jsSort cmp l).Perm l :=
  List.perm_insertionSort _ l

theorem jsSort_pairwise {α : Type} (cmp : α → α → Int)
    (htot : ∀ a b, cmp a b ≤ 0 ∨ cmp b a ≤ 0)
    (htr : ∀ a b c, cmp a b ≤ 0 → cmp b c ≤ 0 → cmp a c ≤ 0) (l : List α) :
    (jsSort cmp l).Pairwise (fun a b => cmp a b ≤ 0) := by
  haveI : IsTotal α (fun a b => cmp a b ≤ 0) := ⟨htot⟩
  haveI : IsTrans α (fun a b => cmp a b ≤ 0) := ⟨htr⟩
  exact List.sorted_insertionSort (fun a b => cmp a b ≤ 0) l

/-! ## Claims on the tracker handler -/

/-- C2: for a conversation without SeenBaseline entry and every emission of
the Thread Stream (every element carries its store key, which is not empty, as
id), the handler changes no unread counter and requests and shows no
notification; if the emission is non-empty, the id of its last element is
recorded as the baseline. -/
theorem C2_unseen_sets_baseline_only (env : NotifyEnv) (userId : String)
    (uname : Option String) (activeId : Option String) (t : Tracker) (thread : List Message)
    (hids : ∀ m ∈ thread, truthy m.id = true)
    (h : objGet t.lastSeen userId = none) :
    (trackerHandler env userId uname activeId t thread).tracker.unread = t.unread ∧
    (trackerHandler env userId uname activeId t thread).requested = none ∧
    (trackerHandler env userId uname activeId t thread).shown = none ∧
    (∀ last, thread.getLast? = some last →
      objGet (trackerHandler env userId uname activeId t thread).tracker.lastSeen userId
        = some last.id) ∧
    (thread ≠ [] → ∃ last, thread.getLast? = some last ∧
      objGet (trackerHandler env userId uname activeId t thread).tracker.lastSeen userId
        = some last.id) := by
  have hp : truthyOpt (objGet t.lastSeen userId) = false := by simp [h, truthyOpt]
  cases hl : thread.getLast? with
  | none =>
    rw [trackerHandler_empty env userId uname activeId t thread hl]
    refine ⟨rfl, rfl, rfl, ?_, ?_⟩
    · intro last hl'
      cases hl'
    · intro hne
      exact absurd (List.getLast?_eq_none_iff.mp hl) hne
  | some last =>
    have hid : truthy last.id = true := hids last (List.mem_of_getLast?_eq_some hl)
    rw [trackerHandler_first env userId uname activeId t thread last hl hid hp]
    refine ⟨rfl, rfl, rfl, ?_, fun _ => ⟨last, rfl, objGet_objSet_same _ _ _⟩⟩
    intro l hl'
    cases hl'
    exact objGet_objSet_same _ _ _

/-- C2 at the first emission of `sampleThread` for conversation `A`: the
baseline becomes `m3`, the unread map and the notifications are untouched. -/
theorem C2_unseen_sets_baseline_only_witness :
    (∀ m ∈ subscribeToMessages (some sampleThread), truthy m.id = true) ∧
    objGet (Tracker.mk [] [("B", 2)]).lastSeen "A" = none ∧
    (trackerHandler envHidden "A" none none ⟨[], [("B", 2)]⟩
      (subscribeToMessages (some sampleThread))).tracker.unread = [("B", 2)] ∧
    (trackerHandler envHidden "A" none none ⟨[], [("B", 2)]⟩
      (subscribeToMessages (some sampleThread))).requested = none ∧
    objGet (trackerHandler envHidden "A" none none ⟨[], [("B", 2)]⟩
      (subscribeToMessages (some sampleThread))).tracker.lastSeen "A" = some "m3" :=
  have h := C2_unseen_sets_baseline_only envHidden "A" none none ⟨[], [("B", 2)]⟩
    (subscribeToMessages (some sampleThread)) (by decide) (by decide)
  ⟨by decide, by decide, h.1, h.2.1,
    h.2.2.2.1 ⟨"m3", "please answer", "user", .pending⟩ (by decide)⟩

/-- C9: whenever the emission is non-empty and its last element has an id,
the handler leaves that id as SeenBaseline of its conversation, whoever wrote
the message and whether or not the conversation is active; when the
conversation is active the unread map is unchanged and no notification is
requested or shown. -/
theorem C9_baseline_always_advances (env : NotifyEnv) (userId : String)
    (uname : Option String) (activeId : Option String) (t : Tracker) (thread : List Message)
    (last : Message) (hb : truthyOpt (objGet t.lastSeen userId) = true)
    (hl : thread.getLast? = some last) (hid : truthy last.id = true) :
    objGet (trackerHandler env userId uname activeId t thread).tracker.lastSeen userId
      = some last.id ∧
    (activeId = some userId →
      (trackerHandler env userId uname activeId t thread).tracker.unread = t.unread ∧
      (trackerHandler env userId uname activeId t thread).requested = none ∧
      (trackerHandler env userId uname activeId t thread).shown = none) := by
  constructor
  · rw [trackerHandler_lastSeen]
    simp [nextBaseline, trailingId, hl, hid]
  · intro ha
    by_cases hne : objGet t.lastSeen userId = some last.id
    · rw [trackerHandler_same env userId uname activeId t thread last hl hid hne]
      exact ⟨rfl, rfl, rfl⟩
    · by_cases hs : last.sender = "user"
      · rw [trackerHandler_active env userId uname activeId t thread last hl hid hb hne hs ha]
        exact ⟨rfl, rfl, rfl⟩
      · rw [trackerHandler_notUser env userId uname activeId t thread last hl hid hb hne hs]
        exact ⟨rfl, rfl, rfl⟩

/-- C9 at scenario 3: baseline `m1`, emission ending in visitor message `m2`,
`A` active: the unread map stays empty and the baseline becomes `m2`. -/
theorem C9_baseline_always_advances_witness :
    truthyOpt (objGet trackerAtM1.lastSeen "A") = true ∧
    objGet (trackerHandler envHidden "A" none (some "A") trackerAtM1 [m1, m2]).tracker.lastSeen "A"
      = some "m2" ∧
    (trackerHandler envHidden "A" none (some "A") trackerAtM1 [m1, m2]).tracker.unread = [] ∧
    (trackerHandler envHidden "A" none (some "A") trackerAtM1 [m1, m2]).requested = none :=
  have h := C9_baseline_always_advances envHidden "A" none (some "A") trackerAtM1 [m1, m2] m2
    (by decide) (by decide) (by decide)
  ⟨by decide, h.1, (h.2 rfl).1, (h.2 rfl).2.1⟩

/-- C10: two non-empty emissions with the same last element have the same
effect on baseline map, unread map and notification; and an emission whose
last element is a visitor message with an id other than the established
baseline, for a conversation that is not active, moves the baseline to that id
and raises the counter by exactly one, whatever precedes the last element. -/
theorem C10_only_last_element_counts (env : NotifyEnv) (userId : String)
    (uname : Option String) (activeId : Option String) (t : Tracker)
    (th₁ th₂ : List Message) (last : Message)
    (hl₁ : th₁.getLast? = some last) (hl₂ : th₂.getLast? = some last) :
    trackerHandler env userId uname activeId t th₁ =
      trackerHandler env userId uname activeId t th₂ ∧
    (truthy last.id = true → truthyOpt (objGet t.lastSeen userId) = true →
      objGet t.lastSeen userId ≠ some last.id → last.sender = "user" →
      activeId ≠ some userId →
      objGet (trackerHandler env userId uname activeId t th₁).tracker.lastSeen userId
        = some last.id ∧
      unreadOf (trackerHandler env userId uname activeId t th₁).tracker.unread userId
        = unreadOf t.unread userId + 1) := by
  constructor
  · simp only [trackerHandler, hl₁, hl₂]
  · intro hid hp hne hs ha
    rw [trackerHandler_counted env userId uname activeId t th₁ last hl₁ hid hp hne hs ha]
    simp [unreadOf, objGet_objSet_same]

/-- C10 at scenario 5: from baseline `m1` the coalesced emission `[m1, m2, m3]`
acts like `[m3]`, moves the baseline to `m3` and counts one unread. -/
theorem C10_only_last_element_counts_witness :
    [m1, m2, m3] ≠ [] ∧ [m3] ≠ [] ∧
    trackerHandler envHidden "A" none none trackerAtM1 [m1, m2, m3] =
      trackerHandler envHidden "A" none none trackerAtM1 [m3] ∧
    objGet (trackerHandler envHidden "A" none none trackerAtM1 [m1, m2, m3]).tracker.lastSeen "A"
      = some "m3" ∧
    unreadOf (trackerHandler envHidden "A" none none trackerAtM1 [m1, m2, m3]).tracker.unread "A"
      = unreadOf trackerAtM1.unread "A" + 1 :=
  have h := C10_only_last_element_counts envHidden "A" none none trackerAtM1
    [m1, m2, m3] [m3] m3 (by decide) (by decide)
  ⟨by decide, by decide, h.1,
    h.2 (by decide) (by decide) (by decide) (by decide) (by decide)⟩

/-! ## Claims on the snapshot projections -/

theorem objGet_of_mem {β : Type} (o : Obj β) (k : String) (v : β)
    (hnd : (objKeys o).Nodup) (h : (k, v) ∈ o) : objGet o k = some v := by
  induction o with
  | nil => simp at h
  | cons p rest ih =>
    obtain ⟨k', v'⟩ := p
    simp only [objKeys, List.map_cons, List.nodup_cons] at hnd
    rcases List.mem_cons.mp h with h | h
    · cases h
      simp [objGet]
    · have hk : k ∈ rest.map Prod.fst := List.mem_map_of_mem Prod.fst h
      have hne : ¬ k' = k := fun e => hnd.1 (e ▸ hk)
      simp only [objGet, hne, if_false]
      exact ih hnd.2 h

/-- Every element of an emission carries a key of the snapshot as id. -/
theorem subscribeToMessages_ids (val : Obj MessageBody)
    (h : ∀ k ∈ objKeys val, truthy k = true) :
    ∀ m ∈ subscribeToMessages (some val), truthy m.id = true := by
  intro m hm
  have hperm : (subscribeToMessages (some val)).Perm (val.map toMessage) := by
    simp only [subscribeToMessages, Option.getD_some]
    exact jsSort_perm _ _
  obtain ⟨p, hp, rfl⟩ := List.mem_map.mp (hperm.mem_iff.mp hm)
  exact h p.1 (List.mem_map_of_mem Prod.fst hp)

/-- C3: for every snapshot of a keyed message collection (distinct keys), the
array `subscribeToMessages` passes on holds, for every key of the snapshot,
exactly one element, which carries that key as `id` and the stored text,
sender and `createdAt`, and nothing else; it is strictly ascending by `id` in
JavaScript string order, whatever the key order and the `createdAt` values;
a snapshot without value gives the empty array. -/
theorem C3_thread_sorted_by_id (val : Obj MessageBody) (h : (objKeys val).Nodup) :
    (subscribeToMessages (some val)).Perm
      (val.map (fun p => Message.mk p.1 p.2.text p.2.sender p.2.createdAt)) ∧
    (∀ k b, (k, b) ∈ val →
      Message.mk k b.text b.sender b.createdAt ∈ subscribeToMessages (some val)) ∧
    (∀ m ∈ subscribeToMessages (some val),
      objGet val m.id = some (MessageBody.mk m.text m.sender m.createdAt)) ∧
    ((subscribeToMessages (some val)).map (fun m => m.id)).Perm (objKeys val) ∧
    (subscribeToMessages (some val)).Pairwise (fun a b => jsGt b.id a.id = true) ∧
    subscribeToMessages none = [] := by
  have hperm : (subscribeToMessages (some val)).Perm
      (val.map (fun p => Message.mk p.1 p.2.text p.2.sender p.2.createdAt)) := by
    simp only [subscribeToMessages, Option.getD_some]
    exact jsSort_perm _ _
  have hkeys : (val.map (fun p => Message.mk p.1 p.2.text p.2.sender p.2.createdAt)).map
      (fun m => m.id) = objKeys val := by
    simp [objKeys, Function.comp_def]
  have hids : ((subscribeToMessages (some val)).map (fun m => m.id)).Perm (objKeys val) := by
    rw [← hkeys]
    exact hperm.map _
  refine ⟨hperm, ?_, ?_, hids, ?_, rfl⟩
  · intro k b hkb
    exact hperm.mem_iff.mpr (List.mem_map.mpr ⟨(k, b), hkb, rfl⟩)
  · intro m hm
    obtain ⟨p, hp, rfl⟩ := List.mem_map.mp (hperm.mem_iff.mp hm)
    exact objGet_of_mem val p.1 p.2 h hp
  · have hsorted : (subscribeToMessages (some val)).Pairwise
        (fun a b => messageCmp a b ≤ 0) := by
      simp only [subscribeToMessages, Option.getD_some]
      exact jsSort_pairwise messageCmp messageCmp_total messageCmp_trans _
    have hnodup : (subscribeToMessages (some val)).Pairwise (fun a b => a.id ≠ b.id) := by
      have : ((subscribeToMessages (some val)).map (fun m => m.id)).Nodup :=
        hids.nodup_iff.mpr h
      exact List.pairwise_map.mp this
    refine (hsorted.and hnodup).imp ?_
    intro a b hab
    exact jsGt_of_ne_of_not_jsGt hab.2 ((messageCmp_le_iff a b).mp hab.1)

/-- C3 at `sampleThread`: keys `m3, m1, m2` come out as `m1, m2, m3`, each with
its stored fields. -/
theorem C3_thread_sorted_by_id_witness :
    (objKeys sampleThread).Nodup ∧
    subscribeToMessages (some sampleThread) =
      [⟨"m1", "hello", "user", .resolved 10⟩,
       ⟨"m2", "hi, how can I help?", "admin", .pending⟩,
       ⟨"m3", "please answer", "user", .pending⟩] ∧
    (subscribeToMessages (some sampleThread)).Perm
      (sampleThread.map (fun p => Message.mk p.1 p.2.text p.2.sender p.2.createdAt)) ∧
    (subscribeToMessages (some sampleThread)).Pairwise (fun a b => jsGt b.id a.id = true) :=
  have h := C3_thread_sorted_by_id sampleThread (by decide)
  ⟨by decide, by decide, h.1, h.2.2.2.2.1⟩

/-- C4: for every snapshot of the summary collection, the array
`subscribeToUsers` passes on holds one element per stored summary, carrying
its key as `userId` and the stored name, last message and `lastAt`, in an
order in which the sort time (`lastAt`, or 0 while it is not a number) never
increases from an element to a later one; the projection is a total function:
`sampleRoster`, with an unresolved `lastAt`, comes out as `A, B, P`. -/
theorem C4_roster_sorted_by_lastAt (snap : Option (Obj SummaryBody)) :
    (subscribeToUsers snap).Perm
      ((snap.getD []).map (fun p => Summary.mk p.1 p.2.name p.2.lastMessage p.2.lastAt)) ∧
    (subscribeToUsers snap).Pairwise (fun a b => sortTime b.lastAt ≤ sortTime a.lastAt) ∧
    subscribeToUsers (some sampleRoster) =
      [⟨"A", some "Ann", some "hello", .resolved 9⟩,
       ⟨"B", none, some "ping", .resolved 5⟩,
       ⟨"P", some "Pat", some "typing", .pending⟩] ∧
    subscribeToUsers none = [] := by
  refine ⟨jsSort_perm _ _, ?_, by decide, rfl⟩
  have := jsSort_pairwise summaryCmp
    (fun a b => by rw [summaryCmp_le_iff, summaryCmp_le_iff]; omega)
    (fun a b c h₁ h₂ => by rw [summaryCmp_le_iff] at *; omega) ((snap.getD []).map toSummary)
  refine List.Pairwise.imp (fun {a b} hab => ?_) this
  have hab' := (summaryCmp_le_iff a b).mp hab
  have e : ∀ u : Summary, lastAtOrZero u = sortTime u.lastAt := by
    intro u
    unfold lastAtOrZero sortTime
    cases u.lastAt <;> rfl
  rw [← e a, ← e b]
  exact hab'

/-! ## The roster cleanup -/

/-- Cancelling a list of subscriptions detaches every listener on their
conversations and every listener with one of their handles, logs one cancel
each and touches nothing else. -/
theorem cancelAll_eq (ss : List Subscription) :
    ∀ v : View, ss.foldl (fun w s => cancelSub w s.handle s.userId) v =
      { v with
        live := v.live.filter (fun p =>
          decide (p.2 ∉ ss.map (fun s => s.userId)) &&
            decide (p.1 ∉ ss.map (fun s => s.handle))),
        log := v.log ++ ss.map (fun s => SubEvent.cancelled s.handle) } := by
  induction ss with
  | nil => intro v; simp
  | cons s ss ih =>
    intro v
    rw [List.foldl_cons, ih]
    simp only [cancelSub, List.filter_filter, List.map_cons, List.append_assoc,
      List.singleton_append, List.mem_cons, not_or]
    congr 1
    apply List.filter_congr
    intro p _
    by_cases h₁ : p.1 = s.handle <;> by_cases h₂ : p.1 ∈ ss.map (fun s => s.handle) <;>
      by_cases h₃ : p.2 = s.userId <;> by_cases h₄ : p.2 ∈ ss.map (fun s => s.userId) <;>
      simp [h₁, h₂, h₃, h₄]

theorem rosterCleanupFn_eq (v : View) :
    rosterCleanupFn v =
      { v with
        live := v.live.filter (fun p =>
          decide (p.2 ∉ (objValues v.unsubByUser).map (fun s => s.userId)) &&
            decide (p.1 ∉ (objValues v.unsubByUser).map (fun s => s.handle))),
        log := v.log ++ (objValues v.unsubByUser).map (fun s => SubEvent.cancelled s.handle),
        unsubByUser := [] } := by
  simp only [rosterCleanupFn, cancelAll_eq]

theorem runRosterCleanup_eq (v : View) (h : v.rosterCleanup = false → v.unsubByUser = []) :
    runRosterCleanup v =
      { v with
        live := v.live.filter (fun p =>
          decide (p.2 ∉ (objValues v.unsubByUser).map (fun s => s.userId)) &&
            decide (p.1 ∉ (objValues v.unsubByUser).map (fun s => s.handle))),
        log := v.log ++ (objValues v.unsubByUser).map (fun s => SubEvent.cancelled s.handle),
        unsubByUser := [],
        rosterCleanup := false } := by
  unfold runRosterCleanup
  cases hr : v.rosterCleanup with
  | true => simp [rosterCleanupFn_eq]
  | false =>
    have hu := h hr
    cases v
    simp_all [objValues]

theorem trackerLive_handles (v : View) :
    (trackerLive v).map Prod.fst = (objValues v.unsubByUser).map (fun s => s.handle) := by
  simp [trackerLive, Function.comp_def]

/-- After the roster cleanup nothing is subscribed by the tracker, and the
bookkeeping still holds. -/
theorem runRosterCleanup_core (v : View) (hc : Core v)
    (h : v.rosterCleanup = false → v.unsubByUser = []) :
    Core (runRosterCleanup v) := by
  rw [runRosterCleanup_eq v h]
  constructor
  · intro p hp
    right
    have hp' := List.mem_filter.mp hp
    rcases hc.bound p hp'.1 with hT | hA
    · exfalso
      have hin : p.1 ∈ (trackerLive v).map Prod.fst := List.mem_map_of_mem _ hT
      rw [trackerLive_handles] at hin
      have := hp'.2
      simp only [Bool.and_eq_true, decide_eq_true_eq] at this
      exact this.2 hin
    · exact hA
  · exact hc.nodup.sublist ((List.filter_sublist _).map _)
  · intro p hp
    exact hc.fresh p (List.mem_of_mem_filter hp)
  · simp [objKeys]
  · intro p hp
    simp at hp
  · exact hc.afresh
  · intro c _
    simp [trackerLive, objValues]

/-! ## The subscription loop of the roster effect -/

theorem objGet_eq_none_iff {β : Type} (o : Obj β) (k : String) :
    objGet o k = none ↔ k ∉ objKeys o := by
  induction o with
  | nil => simp [objGet, objKeys]
  | cons p rest ih =>
    obtain ⟨k', v'⟩ := p
    by_cases h : k' = k
    · simp [objGet, objKeys, h]
    · have h' : ¬ k = k' := fun e => h e.symm
      simpa [objGet, objKeys, h, h'] using ih

theorem objSet_of_objGet_none {β : Type} (o : Obj β) (k : String) (v : β)
    (h : objGet o k = none) : objSet o k v = o ++ [(k, v)] := by
  induction o with
  | nil => simp [objSet]
  | cons p rest ih =>
    obtain ⟨k', v'⟩ := p
    by_cases hk : k' = k
    · simp [objGet, hk] at h
    · simp only [objGet, hk, if_false] at h
      simp [objSet, hk, ih h]

theorem mem_of_objGet {β : Type} (o : Obj β) (k : String) (v : β)
    (h : objGet o k = some v) : (k, v) ∈ o := by
  induction o with
  | nil => simp [objGet] at h
  | cons p rest ih =>
    obtain ⟨k', v'⟩ := p
    by_cases hk : k' = k
    · simp only [objGet, hk, if_true, Option.some.injEq] at h
      simp [hk, h]
    · simp only [objGet, hk, if_false] at h
      exact List.mem_cons_of_mem _ (ih h)

theorem subscribing_start (v₀ : View) (hc : Core v₀) (hu : v₀.unsubByUser = []) :
    Subscribing v₀ [] v₀ where
  core := hc
  attached := by simp [trackerLive, objValues, hu]
  keys := by simp [hu, objKeys]
  closure := by simp [hu]
  users := rfl
  active := rfl
  unread := rfl
  lastSeen := rfl
  activeUnsub := rfl
  requests := rfl
  next := le_refl _
  liveOld := fun p hp => Or.inl hp
  liveKeep := fun p hp => hp
  logOld := fun e he => he

theorem subscribeUser_of_has (w : View) (u : Summary)
    (h : plainHas w.unsubByUser u.userId = true) : subscribeUser w u = w := by
  simp [subscribeUser, h]

theorem subscribeUser_of_not (w : View) (u : Summary)
    (h : plainHas w.unsubByUser u.userId = false) :
    subscribeUser w u =
      { w with
        live := w.live ++ [(w.nextHandle, u.userId)],
        nextHandle := w.nextHandle + 1,
        log := w.log ++ [SubEvent.opened w.nextHandle u.userId],
        unsubByUser :=
          w.unsubByUser ++ [(u.userId, ⟨w.nextHandle, u.userId, u.name, activeUserId w⟩)] } := by
  have hg : objGet w.unsubByUser u.userId = none := by
    simp only [plainHas, Bool.or_eq_false_iff] at h
    cases hv : objGet w.unsubByUser u.userId with
    | none => rfl
    | some x => rw [hv] at h; simp at h
  simp [subscribeUser, h, openSub, objSet_of_objGet_none, hg]

theorem trackerLive_append (v : View) (o : Obj Subscription) (k : String) (s : Subscription)
    (h : v.unsubByUser = o ++ [(k, s)]) :
    trackerLive v = (objValues o).map (fun s => (s.handle, s.userId)) ++ [(s.handle, s.userId)] := by
  simp [trackerLive, objValues, h]

theorem subscribing_step (v₀ : View) (done : List String) (w : View) (u : Summary)
    (h : Subscribing v₀ done w) :
    Subscribing v₀ (done ++ [u.userId]) (subscribeUser w u) := by
  cases hg : plainHas w.unsubByUser u.userId with
  | true =>
    rw [subscribeUser_of_has w u hg]
    exact { h with
      keys := by
        intro uid
        rw [h.keys uid, List.mem_append, List.mem_singleton]
        constructor
        · rintro ⟨h₁, h₂⟩
          exact ⟨Or.inl h₁, h₂⟩
        · rintro ⟨h₁ | h₁, h₂⟩
          · exact ⟨h₁, h₂⟩
          · rw [h₁] at h₂ ⊢
            simp only [plainHas, Bool.or_eq_true, h₂, Bool.false_eq_true, or_false] at hg
            have hin : u.userId ∈ objKeys w.unsubByUser := by
              by_contra hnot
              rw [(objGet_eq_none_iff _ _).mpr hnot] at hg
              simp at hg
            exact (h.keys _).mp hin }
  | false =>
    have hparts : objGet w.unsubByUser u.userId = none ∧ isInherited u.userId = false := by
      simp only [plainHas, Bool.or_eq_false_iff] at hg
      refine ⟨?_, hg.2⟩
      cases hv : objGet w.unsubByUser u.userId with
      | none => rfl
      | some x => rw [hv] at hg; simp at hg
    have hnot : u.userId ∉ objKeys w.unsubByUser := (objGet_eq_none_iff _ _).mp hparts.1
    have hplain : isInherited u.userId = false := hparts.2
    rw [subscribeUser_of_not w u hg]
    have hact : activeUserId w = activeUserId v₀ := by simp [activeUserId, h.active]
    have hT := trackerLive_append
      { w with
        live := w.live ++ [(w.nextHandle, u.userId)],
        nextHandle := w.nextHandle + 1,
        log := w.log ++ [SubEvent.opened w.nextHandle u.userId],
        unsubByUser :=
          w.unsubByUser ++ [(u.userId, ⟨w.nextHandle, u.userId, u.name, activeUserId w⟩)] }
      w.unsubByUser u.userId ⟨w.nextHandle, u.userId, u.name, activeUserId w⟩ rfl
    refine
      { core := ?_, attached := ?_, keys := ?_, closure := ?_, users := h.users,
        active := h.active, unread := h.unread, lastSeen := h.lastSeen,
        activeUnsub := h.activeUnsub, requests := h.requests, next := ?_, liveOld := ?_,
        liveKeep := ?_, logOld := ?_ }
    · constructor
      · intro p hp
        rw [hT]
        rcases List.mem_append.mp hp with hp | hp
        · rcases h.core.bound p hp with hb | hb
          · exact Or.inl (List.mem_append_left _ hb)
          · exact Or.inr hb
        · exact Or.inl (List.mem_append_right _ hp)
      · show ((w.live ++ [(w.nextHandle, u.userId)]).map Prod.fst).Nodup
        rw [List.map_append, List.nodup_append]
        refine ⟨h.core.nodup, by simp, ?_⟩
        intro a ha hb
        simp only [List.map_cons, List.map_nil, List.mem_singleton] at hb
        obtain ⟨p, hp, rfl⟩ := List.mem_map.mp ha
        have := h.core.fresh p hp
        omega
      · intro p hp
        show p.1 < w.nextHandle + 1
        rcases List.mem_append.mp hp with hp | hp
        · have := h.core.fresh p hp
          omega
        · simp only [List.mem_singleton] at hp
          rw [hp]
          exact Nat.lt_succ_self _
      · show (objKeys (w.unsubByUser ++ [_])).Nodup
        simp only [objKeys, List.map_append, List.map_cons, List.map_nil]
        rw [List.nodup_append]
        refine ⟨h.core.keys, by simp, ?_⟩
        intro a ha hb
        simp only [List.mem_singleton] at hb
        exact hnot (hb ▸ ha)
      · intro p hp
        rcases List.mem_append.mp hp with hp | hp
        · exact h.core.own p hp
        · simp only [List.mem_singleton] at hp
          rw [hp]
      · intro c hc
        show c.1 < w.nextHandle + 1
        have := h.core.afresh c hc
        omega
      · intro c hc
        rw [hT, List.map_append, List.mem_append]
        rintro (hin | hin)
        · exact h.core.apart c hc hin
        · simp only [List.map_cons, List.map_nil, List.mem_singleton] at hin
          have := h.core.afresh c hc
          omega
    · intro p hp
      rw [hT] at hp
      show p ∈ w.live ++ [(w.nextHandle, u.userId)]
      rcases List.mem_append.mp hp with hp | hp
      · exact List.mem_append_left _ (h.attached p hp)
      · exact List.mem_append_right _ hp
    · intro uid
      show uid ∈ objKeys (w.unsubByUser ++ [_]) ↔ _
      simp only [objKeys, List.map_append, List.map_cons, List.map_nil, List.mem_append,
        List.mem_singleton]
      have := h.keys uid
      simp only [objKeys] at this
      rw [this]
      constructor
      · rintro (⟨h₁, h₂⟩ | h₁)
        · exact ⟨Or.inl h₁, h₂⟩
        · exact ⟨Or.inr h₁, by rw [h₁]; exact hplain⟩
      · rintro ⟨h₁ | h₁, h₂⟩
        · exact Or.inl ⟨h₁, h₂⟩
        · exact Or.inr h₁
    · intro p hp
      rcases List.mem_append.mp hp with hp | hp
      · have := h.closure p hp
        exact this
      · simp only [List.mem_singleton] at hp
        rw [hp]
        exact ⟨hact, h.next⟩
    · show v₀.nextHandle ≤ w.nextHandle + 1
      have := h.next
      omega
    · intro p hp
      rcases List.mem_append.mp hp with hp | hp
      · exact h.liveOld p hp
      · simp only [List.mem_singleton] at hp
        rw [hp]
        exact Or.inr h.next
    · intro p hp
      exact List.mem_append_left _ (h.liveKeep p hp)
    · intro e he
      exact List.mem_append_left _ (h.logOld e he)

theorem subscribing_fold (v₀ : View) (us : List Summary) :
    ∀ (done : List String) (w : View), Subscribing v₀ done w →
      Subscribing v₀ (done ++ us.map (fun u => u.userId)) (us.foldl subscribeUser w) := by
  induction us with
  | nil => intro done w h; simpa using h
  | cons u us ih =>
    intro done w h
    have := ih (done ++ [u.userId]) (subscribeUser w u) (subscribing_step v₀ done w u h)
    simpa using this

/-! ## One run of the roster effect -/

theorem subscribing_setCleanup (v₀ w : View) (done : List String) (b : Bool)
    (h : Subscribing v₀ done w) : Subscribing v₀ done { w with rosterCleanup := b } :=
  { core := ⟨h.core.bound, h.core.nodup, h.core.fresh, h.core.keys, h.core.own,
      h.core.afresh, h.core.apart⟩
    attached := h.attached
    keys := h.keys
    closure := h.closure
    users := h.users
    active := h.active
    unread := h.unread
    lastSeen := h.lastSeen
    activeUnsub := h.activeUnsub
    requests := h.requests
    next := h.next
    liveOld := h.liveOld
    liveKeep := h.liveKeep
    logOld := h.logOld }

/-- The body of the roster effect, started with nothing subscribed, ends with
one tracker subscription per roster id; it leaves its cleanup behind exactly
when the roster is not empty. -/
theorem rosterBody_subscribing (v : View) (hc : Core v) (hu : v.unsubByUser = []) :
    Subscribing v (v.users.map (fun u => u.userId)) (rosterBody v) ∧
    ((rosterBody v).rosterCleanup = false → (rosterBody v).unsubByUser = []) := by
  unfold rosterBody
  by_cases hlen : v.users.length = 0
  · have hnil : v.users = [] := List.length_eq_zero.mp hlen
    simp only [hlen, if_true]
    refine ⟨?_, fun _ => hu⟩
    have hmap : v.users.map (fun u => u.userId) = [] := by simp [hnil]
    rw [hmap]
    exact subscribing_setCleanup v v [] false (subscribing_start v hc hu)
  · simp only [hlen, if_false, hu, objKeys, List.map_nil, List.foldl_nil]
    refine ⟨?_, fun h => by cases h⟩
    have := subscribing_fold v v.users [] v (subscribing_start v hc hu)
    simp only [List.nil_append] at this
    exact subscribing_setCleanup v _ _ true this

theorem core_setUsers (v : View) (us : List Summary) (hc : Core v) :
    Core { v with users := us } :=
  ⟨hc.bound, hc.nodup, hc.fresh, hc.keys, hc.own, hc.afresh, hc.apart⟩

/-- The body of the roster effect, started with nothing subscribed, settles
the view. -/
theorem rosterBody_settled (v : View) (hc : Core v) (hu : v.unsubByUser = [])
    (ha : v.activeUnsub.map Prod.snd = (activeUserId v).filter truthy) :
    Settled (rosterBody v) := by
  obtain ⟨hs, hcl⟩ := rosterBody_subscribing v hc hu
  have hact : activeUserId (rosterBody v) = activeUserId v := by
    show Option.map _ (rosterBody v).active = Option.map _ v.active
    rw [hs.active]
  exact
    { core := hs.core
      attached := hs.attached
      cleanup := hcl
      roster := by
        intro uid
        rw [hs.users]
        exact hs.keys uid
      closure := by
        intro p hp
        rw [hact, (hs.closure p hp).1]
      active := by
        rw [hact, hs.activeUnsub, ha] }

/-- One re-run of the roster effect (cleanup, then body) settles the view. -/
theorem rosterEffect_settled (v : View) (hc : Core v)
    (h : v.rosterCleanup = false → v.unsubByUser = [])
    (ha : v.activeUnsub.map Prod.snd = (activeUserId v).filter truthy) :
    Settled (rosterEffect v) ∧ Subscribing (runRosterCleanup v)
      (v.users.map (fun u => u.userId)) (rosterEffect v) := by
  have hc' := runRosterCleanup_core v hc h
  have hu' : (runRosterCleanup v).unsubByUser = [] := by rw [runRosterCleanup_eq v h]
  have husers : (runRosterCleanup v).users = v.users := by rw [runRosterCleanup_eq v h]
  have ha' : (runRosterCleanup v).activeUnsub.map Prod.snd =
      (activeUserId (runRosterCleanup v)).filter truthy := by
    rw [runRosterCleanup_eq v h]; exact ha
  have hs := (rosterBody_subscribing (runRosterCleanup v) hc' hu').1
  rw [husers] at hs
  exact ⟨rosterBody_settled _ hc' hu' ha', hs⟩

/-! ## The active-thread effect and a change of `active` -/

theorem runActiveCleanup_eq (v : View) :
    runActiveCleanup v =
      { v with
        live := v.live.filter (fun p =>
          decide (p.2 ∉ v.activeUnsub.toList.map Prod.snd) &&
            decide (p.1 ∉ v.activeUnsub.toList.map Prod.fst)),
        log := v.log ++ v.activeUnsub.toList.map (fun c => SubEvent.cancelled c.1),
        activeUnsub := none } := by
  unfold runActiveCleanup
  cases hv : v.activeUnsub with
  | none =>
    cases v
    simp_all
  | some c =>
    simp [cancelSub]

theorem runActiveCleanup_core (v : View) (hc : Core v) : Core (runActiveCleanup v) := by
  rw [runActiveCleanup_eq]
  constructor
  · intro p hp
    left
    have hp' := List.mem_filter.mp hp
    rcases hc.bound p hp'.1 with hT | hA
    · exact hT
    · exfalso
      have hin : p.1 ∈ v.activeUnsub.toList.map Prod.fst := List.mem_map_of_mem _ hA
      have := hp'.2
      simp only [Bool.and_eq_true, decide_eq_true_eq] at this
      exact this.2 hin
  · exact hc.nodup.sublist ((List.filter_sublist _).map _)
  · intro p hp
    exact hc.fresh p (List.mem_of_mem_filter hp)
  · exact hc.keys
  · exact hc.own
  · intro c hc'
    simp at hc'
  · intro c hc'
    simp at hc'

theorem activeBody_eq (v : View) :
    activeBody v =
      match (activeUserId v).filter truthy with
      | some uid =>
        { v with
          live := v.live ++ [(v.nextHandle, uid)],
          nextHandle := v.nextHandle + 1,
          log := v.log ++ [SubEvent.opened v.nextHandle uid],
          activeUnsub := some (v.nextHandle, uid) }
      | none => { v with activeUnsub := none } := by
  unfold activeBody activeUserId
  cases ha : v.active with
  | none => simp [Option.filter]
  | some a =>
    cases ht : truthy a.userId <;> simp [Option.filter, ht, openSub, ha]

theorem activeBody_core (v : View) (hc : Core v) (hn : v.activeUnsub = none)
    (hu : v.unsubByUser = []) : Core (activeBody v) := by
  rw [activeBody_eq]
  have hlive : ∀ p ∈ v.live, p ∈ trackerLive v := by
    intro p hp
    rcases hc.bound p hp with hb | hb
    · exact hb
    · rw [hn] at hb; simp at hb
  cases hf : (activeUserId v).filter truthy with
  | none =>
    exact ⟨fun p hp => Or.inl (hlive p hp), hc.nodup, hc.fresh, hc.keys, hc.own,
      by simp, by simp⟩
  | some uid =>
    constructor
    · intro p hp
      rcases List.mem_append.mp hp with hp | hp
      · exact Or.inl (hlive p hp)
      · right
        simpa using hp
    · show ((v.live ++ [(v.nextHandle, uid)]).map Prod.fst).Nodup
      rw [List.map_append, List.nodup_append]
      refine ⟨hc.nodup, by simp, ?_⟩
      intro a ha hb
      simp only [List.map_cons, List.map_nil, List.mem_singleton] at hb
      obtain ⟨p, hp, rfl⟩ := List.mem_map.mp ha
      have := hc.fresh p hp
      omega
    · intro p hp
      show p.1 < v.nextHandle + 1
      rcases List.mem_append.mp hp with hp | hp
      · have := hc.fresh p hp
        omega
      · simp only [List.mem_singleton] at hp
        rw [hp]
        exact Nat.lt_succ_self _
    · exact hc.keys
    · exact hc.own
    · intro c hc'
      show c.1 < v.nextHandle + 1
      simp only [Option.toList, List.mem_singleton] at hc'
      rw [hc']
      exact Nat.lt_succ_self _
    · intro c _
      simp [trackerLive, objValues, hu]

/-- A render after `active` may have changed settles the view again. -/
theorem afterActiveChange_settled (old : Option String) (v : View) (hc : Core v)
    (hatt : ∀ p ∈ trackerLive v, p ∈ v.live)
    (h : v.rosterCleanup = false → v.unsubByUser = [])
    (hr : ∀ uid, uid ∈ objKeys v.unsubByUser ↔
      uid ∈ v.users.map (fun u => u.userId) ∧ isInherited uid = false)
    (hcl : ∀ p ∈ v.unsubByUser, p.2.activeId = old)
    (ha : v.activeUnsub.map Prod.snd = old.filter truthy) :
    Settled (afterActiveChange old v) := by
  unfold afterActiveChange
  by_cases hsame : activeUserId v = old
  · simp only [hsame, if_true]
    exact ⟨hc, hatt, h, hr, fun p hp => by rw [hcl p hp, hsame], by rw [ha, hsame]⟩
  · simp only [hsame, if_false]
    have hc₁ := runActiveCleanup_core v hc
    have h₁ : (runActiveCleanup v).rosterCleanup = false →
        (runActiveCleanup v).unsubByUser = [] := by
      rw [runActiveCleanup_eq]; exact h
    have hn₁ : (runActiveCleanup v).activeUnsub = none := by rw [runActiveCleanup_eq]
    have hc₂ := runRosterCleanup_core _ hc₁ h₁
    have hu₂ : (runRosterCleanup (runActiveCleanup v)).unsubByUser = [] := by
      rw [runRosterCleanup_eq _ h₁]
    have hn₂ : (runRosterCleanup (runActiveCleanup v)).activeUnsub = none := by
      rw [runRosterCleanup_eq _ h₁]; exact hn₁
    have hc₃ := activeBody_core _ hc₂ hn₂ hu₂
    have hu₃ : (activeBody (runRosterCleanup (runActiveCleanup v))).unsubByUser = [] := by
      rw [activeBody_eq]
      cases (activeUserId (runRosterCleanup (runActiveCleanup v))).filter truthy <;> exact hu₂
    have ha₃ : (activeBody (runRosterCleanup (runActiveCleanup v))).activeUnsub.map Prod.snd =
        (activeUserId (activeBody (runRosterCleanup (runActiveCleanup v)))).filter truthy := by
      have hact : activeUserId (activeBody (runRosterCleanup (runActiveCleanup v))) =
          activeUserId (runRosterCleanup (runActiveCleanup v)) := by
        rw [activeBody_eq]
        cases (activeUserId (runRosterCleanup (runActiveCleanup v))).filter truthy <;> rfl
      rw [hact, activeBody_eq]
      cases hf : (activeUserId (runRosterCleanup (runActiveCleanup v))).filter truthy <;> rfl
    exact rosterBody_settled _ hc₃ hu₃ ha₃

/-! ## Every reachable state is settled -/

theorem settled_init : Settled View.init where
  core := ⟨by simp [View.init], by simp [View.init],
    by simp [View.init], by simp [View.init, objKeys], by simp [View.init],
    by simp [View.init], by simp [View.init]⟩
  attached := by simp [View.init, trackerLive, objValues]
  cleanup := fun _ => rfl
  roster := by simp [View.init, objKeys]
  closure := by simp [View.init]
  active := by simp [View.init, activeUserId]

theorem settled_setUsers (v : View) (us : List Summary) (h : Settled v) :
    Settled (setUsers v us) :=
  (rosterEffect_settled { v with users := us } (core_setUsers v us h.core) h.cleanup
    h.active).1

theorem settled_openThread (v : View) (u : Summary) (h : Settled v) :
    Settled (openThread v u) :=
  afterActiveChange_settled (activeUserId v) _
    ⟨h.core.bound, h.core.nodup, h.core.fresh, h.core.keys, h.core.own, h.core.afresh,
      h.core.apart⟩
    h.attached h.cleanup h.roster h.closure h.active

theorem settled_confirmDeleteDone (v : View) (uid : String) (h : Settled v) :
    Settled (confirmDeleteDone v uid) :=
  afterActiveChange_settled (activeUserId v) _
    ⟨h.core.bound, h.core.nodup, h.core.fresh, h.core.keys, h.core.own, h.core.afresh,
      h.core.apart⟩
    h.attached h.cleanup h.roster h.closure h.active

theorem threadEmit_frame (v : View) (env : NotifyEnv) (userId : String)
    (thread : List Message) :
    (threadEmit v env userId thread).users = v.users ∧
    (threadEmit v env userId thread).active = v.active ∧
    (threadEmit v env userId thread).unsubByUser = v.unsubByUser ∧
    (threadEmit v env userId thread).rosterCleanup = v.rosterCleanup ∧
    (threadEmit v env userId thread).activeUnsub = v.activeUnsub ∧
    (threadEmit v env userId thread).live = v.live ∧
    (threadEmit v env userId thread).nextHandle = v.nextHandle ∧
    (threadEmit v env userId thread).log = v.log := by
  unfold threadEmit
  cases objGet v.unsubByUser userId with
  | none => simp
  | some s => simp only; split <;> simp

theorem settled_threadEmit (v : View) (env : NotifyEnv) (userId : String)
    (thread : List Message) (h : Settled v) : Settled (threadEmit v env userId thread) := by
  obtain ⟨h₁, h₂, h₃, h₄, h₅, h₆, h₇, _⟩ := threadEmit_frame v env userId thread
  have hact : activeUserId (threadEmit v env userId thread) = activeUserId v := by
    simp [activeUserId, h₂]
  exact
    { core :=
        { bound := by rw [h₆, trackerLive, h₃, h₅]; exact h.core.bound
          nodup := by rw [h₆]; exact h.core.nodup
          fresh := by rw [h₆, h₇]; exact h.core.fresh
          keys := by rw [h₃]; exact h.core.keys
          own := by rw [h₃]; exact h.core.own
          afresh := by rw [h₅, h₇]; exact h.core.afresh
          apart := by rw [h₅, trackerLive, h₃]; exact h.core.apart }
      attached := by rw [h₆, trackerLive, h₃]; exact h.attached
      cleanup := by rw [h₃, h₄]; exact h.cleanup
      roster := by rw [h₃, h₁]; exact h.roster
      closure := by rw [h₃, hact]; exact h.closure
      active := by rw [h₅, hact]; exact h.active }

theorem settled_step (v : View) (e : Event) (h : Settled v) : Settled (step v e) := by
  cases e with
  | roster us => exact settled_setUsers v us h
  | openThread u => exact settled_openThread v u h
  | deleted uid => exact settled_confirmDeleteDone v uid h
  | thread env userId msgs => exact settled_threadEmit v env userId msgs h

theorem settled_exec (evs : List Event) : ∀ v : View, Settled v → Settled (exec v evs) := by
  induction evs with
  | nil => intro v h; exact h
  | cons e evs ih => intro v h; exact ih (step v e) (settled_step v e h)

theorem settled_reachable (evs : List Event) : Settled (exec View.init evs) :=
  settled_exec evs View.init settled_init

/-! ## Claims on the subscription manager -/

theorem trackerLive_snd (v : View) (h : ∀ p ∈ v.unsubByUser, p.2.userId = p.1) :
    (trackerLive v).map Prod.snd = objKeys v.unsubByUser := by
  simp only [trackerLive, objValues, objKeys, List.map_map]
  apply List.map_congr_left
  intro p hp
  exact h p hp

theorem length_eq_of_same_members {l₁ l₂ : List String} (d₁ : l₁.Nodup) (d₂ : l₂.Nodup)
    (h : ∀ a, a ∈ l₁ ↔ a ∈ l₂) : l₁.length = l₂.length :=
  ((List.perm_ext_iff_of_nodup d₁ d₂).mpr h).length_eq

theorem keys_length_reachable (evs : List Event) :
    (objKeys (exec View.init evs).unsubByUser).length =
      (((exec View.init evs).users.map (fun u => u.userId)).filter
        (fun k => !isInherited k)).dedup.length := by
  have h := settled_reachable evs
  apply length_eq_of_same_members h.core.keys (List.nodup_dedup _)
  intro uid
  rw [List.mem_dedup, List.mem_filter, h.roster uid]
  simp

/-- When an emission brings no new trailing visitor message the unread map is
left as it is. -/
theorem trackerHandler_unread_eq_of_not_new (env : NotifyEnv) (userId : String)
    (uname : Option String) (activeId : Option String) (t : Tracker) (thread : List Message)
    (h : isNewVisitorTrail userId (objGet t.lastSeen userId) ⟨env, activeId, thread⟩ = false) :
    (trackerHandler env userId uname activeId t thread).tracker.unread = t.unread := by
  cases hl : thread.getLast? with
  | none => rw [trackerHandler_empty env userId uname activeId t thread hl]
  | some last =>
    cases hid : truthy last.id with
    | false => rw [trackerHandler_noId env userId uname activeId t thread last hl hid]
    | true =>
      cases hp : truthyOpt (objGet t.lastSeen userId) with
      | false => rw [trackerHandler_first env userId uname activeId t thread last hl hid hp]
      | true =>
        by_cases hne : objGet t.lastSeen userId = some last.id
        · rw [trackerHandler_same env userId uname activeId t thread last hl hid hne]
        · by_cases hs : last.sender = "user"
          · by_cases ha : activeId = some userId
            · rw [trackerHandler_active env userId uname activeId t thread last hl hid hp hne hs ha]
            · simp [isNewVisitorTrail, hl, hid, hp, hne, hs, ha] at h
          · rw [trackerHandler_notUser env userId uname activeId t thread last hl hid hp hne hs]


/-- C5 (what the code does instead): a roster id that names a member inherited
from `Object.prototype` is never subscribed, because the guard
`if (unsubByUserRef.current[userId]) return;` finds that member: the roster
`[A, constructor]` opens a stream for `A` only and the roster `[constructor]`
opens none.  In every reachable state the keys of `unsubByUserRef` are exactly
the distinct roster ids that are not such names, one entry each, each with its
listener attached. -/
theorem C5_inherited_id_never_subscribed :
    (exec View.init [.roster [userA, userConstructor]]).users.map (fun u => u.userId)
      = ["A", "constructor"] ∧
    objKeys (exec View.init [.roster [userA, userConstructor]]).unsubByUser = ["A"] ∧
    (exec View.init [.roster [userConstructor]]).unsubByUser = [] ∧
    (∀ (evs : List Event) (uid : String),
      uid ∈ objKeys (exec View.init evs).unsubByUser ↔
        uid ∈ (exec View.init evs).users.map (fun u => u.userId) ∧ isInherited uid = false) ∧
    (∀ evs : List Event, (objKeys (exec View.init evs).unsubByUser).Nodup) ∧
    (∀ evs : List Event, (objKeys (exec View.init evs).unsubByUser).length =
      (((exec View.init evs).users.map (fun u => u.userId)).filter
        (fun k => !isInherited k)).dedup.length) ∧
    (∀ evs : List Event, ∀ p ∈ trackerLive (exec View.init evs),
      p ∈ (exec View.init evs).live) :=
  ⟨by decide, by decide, by decide,
    fun evs uid => (settled_reachable evs).roster uid,
    fun evs => (settled_reachable evs).core.keys,
    keys_length_reachable,
    fun evs => (settled_reachable evs).attached⟩

/-- Handling a roster emission cancels every tracker subscription that was
open, whatever the new roster is: its cancel function is called, its listener
is detached, and no entry of `unsubByUserRef` carries its handle afterwards;
the entries afterwards are those of the new roster, and `unread` and
`lastSeenMsgIdByUserRef` are left as they were. -/
theorem setUsers_cancels (v : View) (h : Settled v) (us : List Summary)
    (A : String) (s : Subscription) (hs : objGet v.unsubByUser A = some s) :
    (s.handle, A) ∈ v.live ∧
    SubEvent.cancelled s.handle ∈ (setUsers v us).log ∧
    (∀ p ∈ (setUsers v us).live, p.1 ≠ s.handle) ∧
    (∀ q ∈ (setUsers v us).unsubByUser, q.2.handle ≠ s.handle) ∧
    (∀ uid, uid ∈ objKeys (setUsers v us).unsubByUser ↔
      uid ∈ us.map (fun u => u.userId) ∧ isInherited uid = false) ∧
    (setUsers v us).unread = v.unread ∧
    (setUsers v us).lastSeen = v.lastSeen := by
  have hmem : (A, s) ∈ v.unsubByUser := mem_of_objGet _ _ _ hs
  have hval : s ∈ objValues v.unsubByUser := List.mem_map.mpr ⟨(A, s), hmem, rfl⟩
  have hown : s.userId = A := h.core.own _ hmem
  have hlive : (s.handle, A) ∈ v.live :=
    h.attached _ (List.mem_map.mpr ⟨s, hval, by rw [hown]⟩)
  have hfresh : s.handle < v.nextHandle := h.core.fresh _ hlive
  have hcl : ({ v with users := us } : View).rosterCleanup = false →
      ({ v with users := us } : View).unsubByUser = [] := h.cleanup
  obtain ⟨_, hsub⟩ := rosterEffect_settled { v with users := us }
    (core_setUsers v us h.core) hcl h.active
  have heq := runRosterCleanup_eq { v with users := us } hcl
  refine ⟨hlive, ?_, ?_, ?_, hsub.keys, ?_, ?_⟩
  · apply hsub.logOld
    rw [heq]
    apply List.mem_append_right
    exact List.mem_map.mpr ⟨s, hval, rfl⟩
  · intro p hp
    rcases hsub.liveOld p hp with hp' | hp'
    · rw [heq] at hp'
      have := (List.mem_filter.mp hp').2
      simp only [Bool.and_eq_true, decide_eq_true_eq] at this
      intro he
      exact this.2 (List.mem_map.mpr ⟨s, hval, he.symm⟩)
    · rw [heq] at hp'
      have : v.nextHandle ≤ p.1 := hp'
      omega
  · intro q hq
    have := (hsub.closure q hq).2
    rw [heq] at this
    have : v.nextHandle ≤ q.2.handle := this
    omega
  · show (rosterEffect { v with users := us }).unread = v.unread
    rw [hsub.unread, heq]
  · show (rosterEffect { v with users := us }).lastSeen = v.lastSeen
    rw [hsub.lastSeen, heq]

/-- C6 (what the code does instead): in every reachable state, handling a
roster emission cancels every open tracker subscription and gives a
conversation that is still in the roster a subscription under another handle,
also when the roster ids are unchanged; with roster `[A]` subscribed under
handle 0, re-delivering `[A]` cancels handle 0 and opens handle 1. -/
theorem C6_redelivery_resubscribes :
    (∀ (evs : List Event) (us : List Summary) (A : String) (s : Subscription),
      objGet (exec View.init evs).unsubByUser A = some s →
        SubEvent.cancelled s.handle ∈ (setUsers (exec View.init evs) us).log ∧
        ∀ s', objGet (setUsers (exec View.init evs) us).unsubByUser A = some s' →
          s'.handle ≠ s.handle) ∧
    (exec View.init [.roster [userA]]).log = [.opened 0 "A"] ∧
    (objGet (exec View.init [.roster [userA]]).unsubByUser "A").map (fun s => s.handle)
      = some 0 ∧
    (setUsers (exec View.init [.roster [userA]]) [userA]).log
      = [.opened 0 "A", .cancelled 0, .opened 1 "A"] ∧
    (objGet (setUsers (exec View.init [.roster [userA]]) [userA]).unsubByUser "A").map
      (fun s => s.handle) = some 1 := by
  refine ⟨?_, by decide, by decide, by decide, by decide⟩
  intro evs us A s hs
  have h := setUsers_cancels _ (settled_reachable evs) us A s hs
  exact ⟨h.2.1, fun s' hs' => h.2.2.2.1 (A, s') (mem_of_objGet _ _ _ hs')⟩

/-- C7 (as stated) fails: `A` has a subscription, a baseline and an unread
count; after the roster `[B]` has been handled both `lastSeenMsgIdByUserRef[A]`
and `unread[A]` are still there. -/
theorem C7_counterexample :
    (objGet viewWithUnreadA.unsubByUser "A").isSome = true ∧
    objGet viewWithUnreadA.lastSeen "A" = some "m2" ∧
    objGet viewWithUnreadA.unread "A" = some 1 ∧
    "A" ∉ [userB].map (fun u => u.userId) ∧
    objGet (setUsers viewWithUnreadA [userB]).lastSeen "A" = some "m2" ∧
    objGet (setUsers viewWithUnreadA [userB]).unread "A" = some 1 := by
  decide

/-- C7 (amended): when a roster emission no longer contains conversation `A`,
which had an open tracker subscription, then after the view has handled the
emission that subscription has been cancelled and its listener is detached,
`A` has no entry in `unsubByUserRef`, and the unread map is what it was. -/
theorem C7_removed_conversation_is_cancelled (evs : List Event) (us : List Summary)
    (A : String) (s : Subscription)
    (hs : objGet (exec View.init evs).unsubByUser A = some s)
    (hA : A ∉ us.map (fun u => u.userId)) :
    (s.handle, A) ∈ (exec View.init evs).live ∧
    SubEvent.cancelled s.handle ∈ (setUsers (exec View.init evs) us).log ∧
    (∀ p ∈ (setUsers (exec View.init evs) us).live, p.1 ≠ s.handle) ∧
    objGet (setUsers (exec View.init evs) us).unsubByUser A = none ∧
    (setUsers (exec View.init evs) us).unread = (exec View.init evs).unread := by
  have h := setUsers_cancels _ (settled_reachable evs) us A s hs
  refine ⟨h.1, h.2.1, h.2.2.1, ?_, h.2.2.2.2.2.1⟩
  rw [objGet_eq_none_iff]
  intro hin
  exact hA ((h.2.2.2.2.1 A).mp hin).1

/-- C7 (amended) at `viewWithUnreadA` and the roster `[B]`. -/
theorem C7_removed_conversation_is_cancelled_witness :
    objGet (exec View.init
        [.roster [userA], .thread envHidden "A" [m1], .thread envHidden "A" [m1, m2]]).unsubByUser
      "A" = some ⟨0, "A", some "Ann", none⟩ ∧
    "A" ∉ [userB].map (fun u => u.userId) ∧
    SubEvent.cancelled 0 ∈ (setUsers (exec View.init
        [.roster [userA], .thread envHidden "A" [m1], .thread envHidden "A" [m1, m2]])
      [userB]).log ∧
    objGet (setUsers (exec View.init
        [.roster [userA], .thread envHidden "A" [m1], .thread envHidden "A" [m1, m2]])
      [userB]).unsubByUser "A" = none :=
  have h := C7_removed_conversation_is_cancelled
    [.roster [userA], .thread envHidden "A" [m1], .thread envHidden "A" [m1, m2]]
    [userB] "A" ⟨0, "A", some "Ann", none⟩ (by decide) (by decide)
  ⟨by decide, by decide, h.2.1, h.2.2.2.1⟩

/-- C8 (as stated) fails: with roster `[A]` and `A` opened, two subscriptions
to the thread of `A` are open at once (the active-thread one and the tracker
one), so two subscriptions are open for a roster of size one. -/
theorem C8_counterexample :
    (exec View.init [.roster [userA], .openThread userA]).users = [userA] ∧
    activeUserId (exec View.init [.roster [userA], .openThread userA]) = some "A" ∧
    (exec View.init [.roster [userA], .openThread userA]).live = [(1, "A"), (2, "A")] ∧
    (exec View.init [.roster [userA], .openThread userA]).live.length ≠
      (exec View.init [.roster [userA], .openThread userA]).users.length := by
  decide

/-- The attached listeners are the tracker ones and, while it is attached, the
active-thread one. -/
theorem live_perm (v : View) (h : Settled v) :
    v.live.Perm (trackerLive v ++ (if activeAttached v then v.activeUnsub.toList else [])) := by
  have hTnd : (trackerLive v).Nodup := by
    have : ((trackerLive v).map Prod.snd).Nodup := by
      rw [trackerLive_snd v h.core.own]; exact h.core.keys
    exact List.Nodup.of_map _ this
  have hLnd : v.live.Nodup := List.Nodup.of_map _ h.core.nodup
  apply (List.perm_ext_iff_of_nodup hLnd ?_).mpr
  · intro p
    rw [List.mem_append]
    constructor
    · intro hp
      rcases h.core.bound p hp with hb | hb
      · exact Or.inl hb
      · right
        cases hv : v.activeUnsub with
        | none => rw [hv] at hb; simp at hb
        | some c =>
          rw [hv] at hb
          simp only [Option.toList, List.mem_singleton] at hb
          subst hb
          simp [activeAttached, hv, hp]
    · rintro (hp | hp)
      · exact h.attached p hp
      · cases hv : v.activeUnsub with
        | none => simp [activeAttached, hv] at hp
        | some c =>
          by_cases hc : c ∈ v.live
          · simp [activeAttached, hv, hc] at hp
            rw [hp]; exact hc
          · simp [activeAttached, hv, hc] at hp
  · rw [List.nodup_append]
    refine ⟨hTnd, ?_, ?_⟩
    · split
      · cases v.activeUnsub <;> simp
      · simp
    · intro p hpT hpA
      split at hpA
      · exact h.core.apart p hpA (List.mem_map_of_mem _ hpT)
      · simp at hpA

theorem openThread_of_ne (v : View) (u : Summary) (hne : activeUserId v ≠ some u.userId) :
    openThread v u = rosterBody (activeBody (runRosterCleanup (runActiveCleanup
      { v with active := some u, unread := objSet v.unread u.userId 0 }))) := by
  simp only [openThread, afterActiveChange]
  rw [if_neg]
  intro e
  exact hne e.symm

/-- Opening a conversation with a non-empty id other than the active one
leaves the listener of the active-thread effect attached. -/
theorem openThread_attached (v : View) (u : Summary) (h : Settled v)
    (ht : truthy u.userId = true) (hne : activeUserId v ≠ some u.userId) :
    activeAttached (openThread v u) = true := by
  rw [openThread_of_ne v u hne]
  generalize hv₂ : runRosterCleanup (runActiveCleanup
    { v with active := some u, unread := objSet v.unread u.userId 0 }) = v₂
  have hc₁ := runActiveCleanup_core
    { v with active := some u, unread := objSet v.unread u.userId 0 }
    ⟨h.core.bound, h.core.nodup, h.core.fresh, h.core.keys, h.core.own, h.core.afresh,
      h.core.apart⟩
  have h₁ : (runActiveCleanup
      { v with active := some u, unread := objSet v.unread u.userId 0 }).rosterCleanup = false →
      (runActiveCleanup
        { v with active := some u, unread := objSet v.unread u.userId 0 }).unsubByUser = [] := by
    rw [runActiveCleanup_eq]; exact h.cleanup
  have hc₂ : Core v₂ := by rw [← hv₂]; exact runRosterCleanup_core _ hc₁ h₁
  have hu₂ : v₂.unsubByUser = [] := by rw [← hv₂, runRosterCleanup_eq _ h₁]
  have hn₂ : v₂.activeUnsub = none := by
    rw [← hv₂, runRosterCleanup_eq _ h₁, runActiveCleanup_eq]
  have ha₂ : activeUserId v₂ = some u.userId := by
    rw [← hv₂, runRosterCleanup_eq _ h₁, runActiveCleanup_eq]
    rfl
  have hc₃ := activeBody_core v₂ hc₂ hn₂ hu₂
  have hu₃ : (activeBody v₂).unsubByUser = [] := by
    rw [activeBody_eq]
    cases (activeUserId v₂).filter truthy <;> exact hu₂
  have hf : (activeUserId v₂).filter truthy = some u.userId := by
    simp [ha₂, Option.filter, ht]
  have hA₃ : (activeBody v₂).activeUnsub = some (v₂.nextHandle, u.userId) := by
    rw [activeBody_eq, hf]
  have hL₃ : (v₂.nextHandle, u.userId) ∈ (activeBody v₂).live := by
    rw [activeBody_eq, hf]
    exact List.mem_append_right _ (List.mem_singleton.mpr rfl)
  have hs := (rosterBody_subscribing (activeBody v₂) hc₃ hu₃).1
  have := hs.liveKeep _ hL₃
  simp [activeAttached, hs.activeUnsub, hA₃, this]

theorem activeAttached_le (v : View) (h : Settled v) :
    activeAttached v = true → truthyOpt (activeUserId v) = true := by
  intro ha
  have hact := h.active
  cases hv : v.activeUnsub with
  | none => simp [activeAttached, hv] at ha
  | some c =>
    rw [hv] at hact
    cases hu : activeUserId v with
    | none => rw [hu] at hact; simp [Option.filter] at hact
    | some uid =>
      rw [hu] at hact
      cases ht : truthy uid with
      | true => simp [truthyOpt, ht]
      | false => simp [Option.filter, ht] at hact

/-- C8 (amended): in every reachable state of the operator view whose roster
holds no id naming an inherited member, there is exactly one tracker
subscription per distinct roster id; the active-thread effect holds one more
subscription, to the active conversation, so the total number of attached
thread listeners is the number of distinct roster ids, plus one while the
listener of the active-thread effect is attached, which needs an active
conversation and is the case right after a conversation with a non-empty id
other than the active one has been opened. -/
theorem C8_open_subscription_count (evs : List Event)
    (hplain : ∀ u ∈ (exec View.init evs).users, isInherited u.userId = false) :
    ((trackerLive (exec View.init evs)).map Prod.snd).Nodup ∧
    (exec View.init evs).live.Perm (trackerLive (exec View.init evs) ++
      (if activeAttached (exec View.init evs) then (exec View.init evs).activeUnsub.toList
        else [])) ∧
    (exec View.init evs).live.length =
      ((exec View.init evs).users.map (fun u => u.userId)).dedup.length +
      (if activeAttached (exec View.init evs) then 1 else 0) ∧
    (activeAttached (exec View.init evs) = true →
      truthyOpt (activeUserId (exec View.init evs)) = true) ∧
    (∀ u : Summary, truthy u.userId = true →
      activeUserId (exec View.init evs) ≠ some u.userId →
      activeAttached (openThread (exec View.init evs) u) = true) := by
  have h := settled_reachable evs
  have h5 := keys_length_reachable evs
  generalize exec View.init evs = v at *
  have hfilter : (v.users.map (fun u => u.userId)).filter (fun k => !isInherited k) =
      v.users.map (fun u => u.userId) := by
    rw [List.filter_eq_self]
    intro k hk
    obtain ⟨u, hu, rfl⟩ := List.mem_map.mp hk
    simp [hplain u hu]
  rw [hfilter] at h5
  have hsnd := trackerLive_snd v h.core.own
  have hperm := live_perm v h
  refine ⟨by rw [hsnd]; exact h.core.keys, hperm, ?_, activeAttached_le v h,
    fun u ht hne => openThread_attached v u h ht hne⟩
  rw [hperm.length_eq, List.length_append, ← h5]
  have hT : (trackerLive v).length = (objKeys v.unsubByUser).length := by
    simp [trackerLive, objValues, objKeys]
  rw [hT]
  congr 1
  cases hv : v.activeUnsub with
  | none => simp [activeAttached, hv]
  | some c => by_cases hc : c ∈ v.live <;> simp [activeAttached, hv, hc]

/-- C8 (amended) at roster `[A]` with `A` opened: two listeners, one roster id. -/
theorem C8_open_subscription_count_witness :
    (∀ u ∈ (exec View.init [.roster [userA], .openThread userA]).users,
      isInherited u.userId = false) ∧
    activeAttached (exec View.init [.roster [userA], .openThread userA]) = true ∧
    (exec View.init [.roster [userA], .openThread userA]).live.length =
      ((exec View.init [.roster [userA], .openThread userA]).users.map
        (fun u => u.userId)).dedup.length +
      (if activeAttached (exec View.init [.roster [userA], .openThread userA]) then 1 else 0) :=
  have h := C8_open_subscription_count [.roster [userA], .openThread userA] (by decide)
  ⟨by decide, by decide, h.2.2.1⟩

/-! ## Claim on exactly-once unread counting -/

theorem jsGt_irrefl (a : String) : jsGt a a = false := unitsLt_irrefl _

theorem jsGt_of_jsGt_of_not_jsGt {j i b : String} (h₁ : jsGt j i = true)
    (h₂ : jsGt b i = false) : jsGt j b = true := by
  unfold jsGt at *
  rcases unitsLt_total (utf16 b) (utf16 j) with h | h | h
  · exact h
  · rw [h, h₁] at h₂; cases h₂
  · rw [unitsLt_trans _ _ _ h₁ h] at h₂; cases h₂

theorem countedIds_length (userId : String) (ds : List Delivery) :
    ∀ base : Option String,
      (countedIds userId base ds).length = newVisitorTrails userId base ds := by
  induction ds with
  | nil => intro base; rfl
  | cons d ds ih =>
    intro base
    simp only [countedIds, newVisitorTrails, List.length_append, ih]
    congr 1
    cases hn : isNewVisitorTrail userId base d with
    | false => simp
    | true =>
      have : ∃ i, trailingId d.thread = some i := by
        unfold isNewVisitorTrail at hn
        unfold trailingId
        cases hl : d.thread.getLast? with
        | none => simp [hl] at hn
        | some last =>
          simp only [hl, Bool.and_eq_true] at hn
          exact ⟨last.id, by simp [hn.1.1.1.1]⟩
      obtain ⟨i, hi⟩ := this
      simp [hi]

/-- When the trailing ids never go down, every counted id lies strictly above
the starting baseline and no id is counted twice. -/
theorem countedIds_nodup (userId : String) (ds : List Delivery) :
    ∀ base : Option String, trailingAscending base ds = true →
      (countedIds userId base ds).Nodup ∧
      ∀ j ∈ countedIds userId base ds, ∀ b, base = some b → jsGt j b = true := by
  induction ds with
  | nil => intro base _; simp [countedIds]
  | cons d ds ih =>
    intro base hasc
    simp only [trailingAscending, Bool.and_eq_true] at hasc
    obtain ⟨hhead, htail⟩ := hasc
    obtain ⟨hnd, habove⟩ := ih (nextBaseline base d.thread) htail
    -- every id counted later lies above the starting baseline
    have hlater : ∀ j ∈ countedIds userId (nextBaseline base d.thread) ds,
        ∀ b, base = some b → jsGt j b = true := by
      intro j hj b hb
      cases ht : trailingId d.thread with
      | none =>
        exact habove j hj b (by simp [nextBaseline, ht, hb])
      | some i =>
        have hji := habove j hj i (by simp [nextBaseline, ht])
        have hbi : jsGt b i = false := by
          simpa [hb, ht] using hhead
        exact jsGt_of_jsGt_of_not_jsGt hji hbi
    simp only [countedIds]
    cases hn : isNewVisitorTrail userId base d with
    | false =>
      simp only [Bool.false_eq_true, if_false, List.nil_append]
      exact ⟨hnd, hlater⟩
    | true =>
      unfold isNewVisitorTrail at hn
      cases hl : d.thread.getLast? with
      | none => simp [hl] at hn
      | some last =>
        simp only [hl, Bool.and_eq_true, decide_eq_true_eq] at hn
        obtain ⟨⟨⟨⟨hid, hbase⟩, hne⟩, _⟩, _⟩ := hn
        have ht : trailingId d.thread = some last.id := by simp [trailingId, hl, hid]
        obtain ⟨b, rfl⟩ : ∃ b, base = some b := by
          cases base with
          | none => simp [truthyOpt] at hbase
          | some b => exact ⟨b, rfl⟩
        have hbi : jsGt b last.id = false := by simpa [ht] using hhead
        have hneq : b ≠ last.id := fun e => hne (by rw [e])
        have hgt : jsGt last.id b = true := jsGt_of_ne_of_not_jsGt hneq hbi
        simp only [if_true, ht, Option.toList, List.singleton_append, List.nodup_cons,
          List.mem_cons]
        refine ⟨⟨?_, hnd⟩, ?_⟩
        · intro hin
          have := habove last.id hin last.id (by simp [nextBaseline, ht])
          rw [jsGt_irrefl] at this
          cases this
        · intro j hj b' hb'
          cases hb'
          rcases hj with hj | hj
          · rw [hj]; exact hgt
          · exact hlater j hj b rfl

/-- C1: for every run of Thread Stream emissions delivered to the tracker
handler of one conversation, the unread counter of that conversation ends at
its starting value plus the number of new trailing visitor messages (trailing
id present and different from the established baseline, visitor-authored,
conversation not active), and when the trailing ids never go down no id is
counted twice; one emission raises it by at most one, not at all
when the trailing message is not visitor-authored or when the conversation is
the active one, and never touches the counter of another conversation; the
`active?.userId` in the closure of every registered handler is the current
one; from baseline `m1`, the emission `[m1, m2]` with visitor message `m2` and
`A` not active gives `unread[A] = 1`. -/
theorem C1_unread_exactly_once :
    (∀ (userId : String) (uname : Option String) (t : Tracker) (ds : List Delivery),
      unreadOf (runTracker userId uname t ds).unread userId =
        unreadOf t.unread userId + newVisitorTrails userId (objGet t.lastSeen userId) ds) ∧
    (∀ (userId : String) (base : Option String) (ds : List Delivery),
      (countedIds userId base ds).length = newVisitorTrails userId base ds ∧
      (trailingAscending base ds = true → (countedIds userId base ds).Nodup)) ∧
    (∀ (env : NotifyEnv) (userId : String) (uname activeId : Option String) (t : Tracker)
        (thread : List Message),
      unreadOf t.unread userId ≤
        unreadOf (trackerHandler env userId uname activeId t thread).tracker.unread userId ∧
      unreadOf (trackerHandler env userId uname activeId t thread).tracker.unread userId ≤
        unreadOf t.unread userId + 1 ∧
      (∀ last, thread.getLast? = some last → last.sender ≠ "user" →
        (trackerHandler env userId uname activeId t thread).tracker.unread = t.unread) ∧
      (activeId = some userId →
        (trackerHandler env userId uname activeId t thread).tracker.unread = t.unread) ∧
      (∀ other, other ≠ userId →
        objGet (trackerHandler env userId uname activeId t thread).tracker.unread other =
          objGet t.unread other)) ∧
    (∀ (evs : List Event) (uid : String) (s : Subscription),
      objGet (exec View.init evs).unsubByUser uid = some s →
        s.userId = uid ∧ s.activeId = activeUserId (exec View.init evs)) ∧
    (trackerHandler envHidden "A" (some "Ann") none trackerAtM1 [m1, m2]).tracker.unread
      = [("A", 1)] := by
  refine ⟨fun userId uname t ds => runTracker_unread userId uname ds t,
    fun userId base ds => ⟨countedIds_length userId ds base,
      fun h => (countedIds_nodup userId ds base h).1⟩, ?_, ?_, by decide⟩
  · intro env userId uname activeId t thread
    have hu := trackerHandler_unread env userId uname activeId t thread
    refine ⟨?_, ?_, ?_, ?_, fun other ho =>
      trackerHandler_unread_other env userId uname activeId t thread other ho⟩
    · rw [hu]; exact Nat.le_add_right _ _
    · rw [hu]; split <;> omega
    · intro last hl hs
      exact trackerHandler_unread_eq_of_not_new env userId uname activeId t thread
        (by simp [isNewVisitorTrail, hl, hs])
    · intro ha
      exact trackerHandler_unread_eq_of_not_new env userId uname activeId t thread
        (by simp only [isNewVisitorTrail]; cases thread.getLast? <;> simp [ha])
  · intro evs uid s hs
    have h := settled_reachable evs
    have hmem := mem_of_objGet _ _ _ hs
    exact ⟨h.core.own _ hmem, h.closure _ hmem⟩

/-! ## Further claims on the tracker handler -/

/-- The state part of the handler's result does not depend on what the
browser reports. -/
theorem trackerHandler_tracker_env (env env' : NotifyEnv) (userId : String)
    (uname : Option String) (activeId : Option String) (t : Tracker) (thread : List Message) :
    (trackerHandler env userId uname activeId t thread).tracker =
      (trackerHandler env' userId uname activeId t thread).tracker := by
  cases hl : thread.getLast? with
  | none =>
    rw [trackerHandler_empty env userId uname activeId t thread hl,
      trackerHandler_empty env' userId uname activeId t thread hl]
  | some last =>
    cases hid : truthy last.id with
    | false =>
      rw [trackerHandler_noId env userId uname activeId t thread last hl hid,
        trackerHandler_noId env' userId uname activeId t thread last hl hid]
    | true =>
      cases hp : truthyOpt (objGet t.lastSeen userId) with
      | false =>
        rw [trackerHandler_first env userId uname activeId t thread last hl hid hp,
          trackerHandler_first env' userId uname activeId t thread last hl hid hp]
      | true =>
        by_cases hne : objGet t.lastSeen userId = some last.id
        · rw [trackerHandler_same env userId uname activeId t thread last hl hid hne,
            trackerHandler_same env' userId uname activeId t thread last hl hid hne]
        · by_cases hs : last.sender = "user"
          · by_cases ha : activeId = some userId
            · rw [trackerHandler_active env userId uname activeId t thread last hl hid hp hne hs ha,
                trackerHandler_active env' userId uname activeId t thread last hl hid hp hne hs ha]
            · rw [trackerHandler_counted env userId uname activeId t thread last hl hid hp hne hs ha,
                trackerHandler_counted env' userId uname activeId t thread last hl hid hp hne hs ha]
          · rw [trackerHandler_notUser env userId uname activeId t thread last hl hid hp hne hs,
              trackerHandler_notUser env' userId uname activeId t thread last hl hid hp hne hs]

/-- The handler shows a notification only in its last branch, with the tab not
visible. -/
theorem trackerHandler_shown (env : NotifyEnv) (userId : String)
    (uname : Option String) (activeId : Option String) (t : Tracker) (thread : List Message)
    (n : NotifyRequest)
    (h : (trackerHandler env userId uname activeId t thread).shown = some n) :
    env.visible = false ∧
      (showDesktopNotification env
        ⟨"New message from " ++ nameOrUser uname, n.body⟩).1 = some n := by
  cases hl : thread.getLast? with
  | none => rw [trackerHandler_empty env userId uname activeId t thread hl] at h; cases h
  | some last =>
    cases hid : truthy last.id with
    | false =>
      rw [trackerHandler_noId env userId uname activeId t thread last hl hid] at h; cases h
    | true =>
      cases hp : truthyOpt (objGet t.lastSeen userId) with
      | false =>
        rw [trackerHandler_first env userId uname activeId t thread last hl hid hp] at h
        cases h
      | true =>
        by_cases hne : objGet t.lastSeen userId = some last.id
        · rw [trackerHandler_same env userId uname activeId t thread last hl hid hne] at h
          cases h
        · by_cases hs : last.sender = "user"
          · by_cases ha : activeId = some userId
            · rw [trackerHandler_active env userId uname activeId t thread last hl hid hp hne
                hs ha] at h
              cases h
            · rw [trackerHandler_counted env userId uname activeId t thread last hl hid hp hne
                hs ha] at h
              cases hv : env.visible with
              | true => simp [hv] at h
              | false =>
                simp only [hv, Bool.false_eq_true, if_false] at h
                refine ⟨rfl, ?_⟩
                have hn : n = ⟨"New message from " ++ nameOrUser uname,
                    textOrDefault last.text⟩ := by
                  unfold showDesktopNotification at h
                  split at h
                  · cases h
                  · split at h
                    · cases h
                    · split at h
                      · cases h
                      · exact (Option.some.inj h).symm
                rw [hn] at h ⊢
                exact h
          · rw [trackerHandler_notUser env userId uname activeId t thread last hl hid hp hne
              hs] at h
            cases h

/-- Function `showDesktopNotification` constructs a notification only when
notifications are available and permission is granted. -/
theorem showDesktopNotification_some (env : NotifyEnv) (r n : NotifyRequest)
    (h : (showDesktopNotification env r).1 = some n) :
    env.canUse = true ∧ env.permission = "granted" ∧ env.ctorThrows = false ∧ n = r := by
  unfold showDesktopNotification at h
  cases hc : env.canUse with
  | false => simp [hc] at h
  | true =>
    by_cases hp : env.permission = "granted"
    · cases ht : env.ctorThrows with
      | true => simp [hc, hp, ht] at h
      | false =>
        simp [hc, hp, ht] at h
        exact ⟨rfl, hp, rfl, h.symm⟩
    · simp [hc, hp] at h

/-- C11: the handler changes nothing and requests nothing when the emission
is empty or its last id equals the SeenBaseline of the conversation; handling
the same emission a second time, whatever the browser then reports and
whichever conversation is then active, leaves the baseline map and the unread
map of the first handling and requests no notification. -/
theorem C11_noop_and_idempotent (env env' : NotifyEnv) (userId : String)
    (uname : Option String) (activeId activeId' : Option String) (t : Tracker)
    (thread : List Message) :
    (thread = [] → trackerHandler env userId uname activeId t thread = ⟨t, none, none⟩) ∧
    (∀ last, thread.getLast? = some last → objGet t.lastSeen userId = some last.id →
      trackerHandler env userId uname activeId t thread = ⟨t, none, none⟩) ∧
    trackerHandler env' userId uname activeId'
        (trackerHandler env userId uname activeId t thread).tracker thread =
      ⟨(trackerHandler env userId uname activeId t thread).tracker, none, none⟩ := by
  refine ⟨?_, ?_, ?_⟩
  · intro h
    exact trackerHandler_empty env userId uname activeId t thread (by simp [h])
  · intro last hl hb
    cases hid : truthy last.id with
    | false => exact trackerHandler_noId env userId uname activeId t thread last hl hid
    | true => exact trackerHandler_same env userId uname activeId t thread last hl hid hb
  · cases hl : thread.getLast? with
    | none => exact trackerHandler_empty env' userId uname activeId' _ thread hl
    | some last =>
      cases hid : truthy last.id with
      | false => exact trackerHandler_noId env' userId uname activeId' _ thread last hl hid
      | true =>
        apply trackerHandler_same env' userId uname activeId' _ thread last hl hid
        rw [trackerHandler_lastSeen]
        simp [nextBaseline, trailingId, hl, hid]

/-- C15: two runs of the handler from the same baseline map, unread map,
active conversation and emission that differ only in what the browser reports
(notification availability, permission, visibility, a throwing constructor)
leave the same unread map and the same baseline map. -/
theorem C15_unread_independent_of_dispatch (env env' : NotifyEnv) (userId : String)
    (uname : Option String) (activeId : Option String) (t : Tracker) (thread : List Message) :
    (trackerHandler env userId uname activeId t thread).tracker.unread =
      (trackerHandler env' userId uname activeId t thread).tracker.unread ∧
    (trackerHandler env userId uname activeId t thread).tracker.lastSeen =
      (trackerHandler env' userId uname activeId t thread).tracker.lastSeen := by
  rw [trackerHandler_tracker_env env env']
  exact ⟨rfl, rfl⟩

/-- C19: for a conversation without baseline, the emission `[]` leaves no
baseline; the first message arriving afterwards is absorbed as the baseline
(unread map unchanged, nothing requested or shown); only the next new visitor
message, arriving while the conversation is not active, raises the counter. -/
theorem C19_first_message_after_empty_is_absorbed (env : NotifyEnv) (userId : String)
    (uname : Option String) (activeId : Option String) (t : Tracker)
    (first second : Message)
    (hb : objGet t.lastSeen userId = none)
    (h₁ : truthy first.id = true) (h₂ : truthy second.id = true)
    (hne : second.id ≠ first.id) (hs : second.sender = "user")
    (ha : activeId ≠ some userId) :
    trackerHandler env userId uname activeId t [] = ⟨t, none, none⟩ ∧
    (trackerHandler env userId uname activeId t [first]).tracker.unread = t.unread ∧
    (trackerHandler env userId uname activeId t [first]).requested = none ∧
    (trackerHandler env userId uname activeId t [first]).shown = none ∧
    objGet (trackerHandler env userId uname activeId t [first]).tracker.lastSeen userId
      = some first.id ∧
    unreadOf (trackerHandler env userId uname activeId
        (trackerHandler env userId uname activeId t [first]).tracker
        [first, second]).tracker.unread userId = unreadOf t.unread userId + 1 := by
  have hp : truthyOpt (objGet t.lastSeen userId) = false := by simp [hb, truthyOpt]
  have hf := trackerHandler_first env userId uname activeId t [first] first rfl h₁ hp
  refine ⟨trackerHandler_empty env userId uname activeId t [] rfl, ?_, ?_, ?_, ?_, ?_⟩
  · rw [hf]
  · rw [hf]
  · rw [hf]
  · rw [hf]; exact objGet_objSet_same _ _ _
  · rw [hf]
    have hg : objGet (objSet t.lastSeen userId first.id) userId = some first.id :=
      objGet_objSet_same _ _ _
    rw [trackerHandler_counted env userId uname activeId _ [first, second] second rfl h₂
      (by simp [hg, truthyOpt, h₁]) (by rw [hg]; intro e; exact hne (Option.some.inj e).symm)
      hs ha]
    simp [unreadOf, objGet_objSet_same]

/-- C19 at `[]`, `[m1]`, `[m1, m2]` for conversation `A`, nothing active. -/
theorem C19_first_message_after_empty_is_absorbed_witness :
    objGet (Tracker.mk [] []).lastSeen "A" = none ∧
    (trackerHandler envHidden "A" none none ⟨[], []⟩ [m1]).tracker.unread = [] ∧
    (trackerHandler envHidden "A" none none ⟨[], []⟩ [m1]).requested = none ∧
    unreadOf (trackerHandler envHidden "A" none none
        (trackerHandler envHidden "A" none none ⟨[], []⟩ [m1]).tracker
        [m1, m2]).tracker.unread "A" = unreadOf (Tracker.mk [] []).unread "A" + 1 :=
  have h := C19_first_message_after_empty_is_absorbed envHidden "A" none none ⟨[], []⟩ m1 m2
    (by decide) (by decide) (by decide) (by decide) (by decide) (by decide)
  ⟨by decide, h.2.1, h.2.2.1, h.2.2.2.2.2⟩

/-! ## The visitor's notification effect -/

/-- The two ways a run of the visitor's notify effect can go: nothing happens,
or the last message is operator-authored with an id other than the recorded
one, which is then recorded, and notified when the tab is not visible. -/
theorem visitorNotifyEffect_cases (env : NotifyEnv) (isNamed : Bool) (ref : Option String)
    (msgs : List Message) :
    (visitorNotifyEffect env isNamed ref msgs = ⟨ref, none, none⟩ ∧
      ¬ (isNamed = true ∧ ∃ last, msgs.getLast? = some last ∧ last.sender = "admin" ∧
        ref ≠ some last.id)) ∨
    (∃ last, isNamed = true ∧ msgs.getLast? = some last ∧ last.sender = "admin" ∧
      ref ≠ some last.id ∧
      visitorNotifyEffect env isNamed ref msgs =
        ⟨some last.id,
          if env.visible then none else some ⟨"Agent replied", textOrDefault last.text⟩,
          if env.visible then none
            else (showDesktopNotification env ⟨"Agent replied", textOrDefault last.text⟩).1⟩) := by
  unfold visitorNotifyEffect
  cases hn : isNamed with
  | false => left; simp
  | true =>
    cases hl : msgs.getLast? with
    | none => left; simp
    | some last =>
      by_cases hs : last.sender = "admin"
      · by_cases hr : ref = some last.id
        · left; simp [hs, hr]
        · right
          refine ⟨last, rfl, rfl, hs, hr, ?_⟩
          cases hv : env.visible <;> simp [hs, hr, hv]
      · left; simp [hs]

theorem visitorNotifyEffect_requested (env : NotifyEnv) (isNamed : Bool) (ref : Option String)
    (msgs : List Message) (n : NotifyRequest)
    (h : (visitorNotifyEffect env isNamed ref msgs).requested = some n) :
    ∃ last, isNamed = true ∧ msgs.getLast? = some last ∧ last.sender = "admin" ∧
      ref ≠ some last.id ∧ env.visible = false ∧
      (visitorNotifyEffect env isNamed ref msgs).lastNotifiedId = some last.id := by
  rcases visitorNotifyEffect_cases env isNamed ref msgs with ⟨he, _⟩ | ⟨last, h₁, h₂, h₃, h₄, he⟩
  · rw [he] at h; cases h
  · rw [he] at h ⊢
    cases hv : env.visible with
    | true => simp [hv] at h
    | false => exact ⟨last, h₁, h₂, h₃, h₄, rfl, rfl⟩

theorem visitorNotifyEffect_shown (env : NotifyEnv) (isNamed : Bool) (ref : Option String)
    (msgs : List Message) (n : NotifyRequest)
    (h : (visitorNotifyEffect env isNamed ref msgs).shown = some n) :
    env.visible = false ∧ env.canUse = true ∧ env.permission = "granted" := by
  rcases visitorNotifyEffect_cases env isNamed ref msgs with ⟨he, _⟩ | ⟨last, _, _, _, _, he⟩
  · rw [he] at h; cases h
  · rw [he] at h
    cases hv : env.visible with
    | true => simp [hv] at h
    | false =>
      simp only [hv, Bool.false_eq_true, if_false] at h
      have := showDesktopNotification_some env _ n h
      exact ⟨rfl, this.1, this.2.1⟩

/-- The recorded id after a run is the old one or the id of the last message. -/
theorem visitorNotifyEffect_ref (env : NotifyEnv) (isNamed : Bool) (ref : Option String)
    (msgs : List Message) :
    (visitorNotifyEffect env isNamed ref msgs).lastNotifiedId = ref ∨
    ∃ last, msgs.getLast? = some last ∧
      (visitorNotifyEffect env isNamed ref msgs).lastNotifiedId = some last.id := by
  rcases visitorNotifyEffect_cases env isNamed ref msgs with ⟨he, _⟩ | ⟨last, _, h₂, _, _, he⟩
  · left; rw [he]
  · right; exact ⟨last, h₂, by rw [he]⟩

/-- When the last ids never go below the recorded id, every notified id lies
strictly above the starting recorded id and no id is notified twice. -/
theorem visitorNotifiedIds_nodup (rs : List VisitorRun) :
    ∀ ref : Option String, visitorAscending ref rs = true →
      (visitorNotifiedIds ref rs).Nodup ∧
      ∀ j ∈ visitorNotifiedIds ref rs, ∀ x, ref = some x → jsGt j x = true := by
  induction rs with
  | nil => intro ref _; simp [visitorNotifiedIds]
  | cons r rs ih =>
    intro ref hasc
    simp only [visitorAscending, Bool.and_eq_true] at hasc
    obtain ⟨hhead, htail⟩ := hasc
    obtain ⟨hnd, habove⟩ := ih _ htail
    have hlater : ∀ j ∈ visitorNotifiedIds
        (visitorNotifyEffect r.env r.isNamed ref r.messages).lastNotifiedId rs,
        ∀ x, ref = some x → jsGt j x = true := by
      intro j hj x hx
      rcases visitorNotifyEffect_ref r.env r.isNamed ref r.messages with he | ⟨last, hl, he⟩
      · exact habove j hj x (by rw [he, hx])
      · have hjl := habove j hj last.id he
        have hxl : jsGt x last.id = false := by simpa [hx, hl] using hhead
        exact jsGt_of_jsGt_of_not_jsGt hjl hxl
    simp only [visitorNotifiedIds]
    cases hq : (visitorNotifyEffect r.env r.isNamed ref r.messages).requested with
    | none =>
      simp only [List.nil_append]
      exact ⟨hnd, hlater⟩
    | some n =>
      obtain ⟨last, _, hl, _, hne, _, href⟩ :=
        visitorNotifyEffect_requested r.env r.isNamed ref r.messages n hq
      simp only [hl, Option.map_some', Option.toList, List.singleton_append, List.nodup_cons,
        List.mem_cons]
      refine ⟨⟨?_, hnd⟩, ?_⟩
      · intro hin
        have := habove last.id hin last.id href
        rw [jsGt_irrefl] at this
        cases this
      · intro j hj x hx
        rcases hj with hj | hj
        · rw [hj]
          have hxl : jsGt x last.id = false := by simpa [hx, hl] using hhead
          have hxne : x ≠ last.id := fun e => hne (by rw [hx, e])
          exact jsGt_of_ne_of_not_jsGt hxne hxl
        · exact hlater j hj x hx

/-- C13 (what the code does instead): with nothing recorded yet, the first
non-empty emission whose last message is operator-authored requests a
notification when the tab is not visible; in general the effect requests a
notification exactly when the visitor is named, the last message is
operator-authored, its id is not the recorded one and the tab is not
visible. -/
theorem C13_first_emission_notifies :
    (visitorNotifyEffect envHidden true none [a1]).requested
      = some ⟨"Agent replied", "how can I help?"⟩ ∧
    (visitorNotifyEffect envHidden true none [m1, a1]).requested
      = some ⟨"Agent replied", "how can I help?"⟩ ∧
    (∀ (env : NotifyEnv) (isNamed : Bool) (ref : Option String) (msgs : List Message),
      (visitorNotifyEffect env isNamed ref msgs).requested.isSome = true ↔
        (isNamed = true ∧ ∃ last, msgs.getLast? = some last ∧ last.sender = "admin" ∧
          ref ≠ some last.id ∧ env.visible = false)) := by
  refine ⟨by decide, by decide, ?_⟩
  intro env isNamed ref msgs
  constructor
  · intro h
    obtain ⟨n, hn⟩ := Option.isSome_iff_exists.mp h
    obtain ⟨last, h₁, h₂, h₃, h₄, h₅, _⟩ :=
      visitorNotifyEffect_requested env isNamed ref msgs n hn
    exact ⟨h₁, last, h₂, h₃, h₄, h₅⟩
  · rintro ⟨h₁, last, h₂, h₃, h₄, h₅⟩
    rcases visitorNotifyEffect_cases env isNamed ref msgs with ⟨_, hno⟩ | ⟨last', _, h₂', _, _, he⟩
    · exact absurd ⟨h₁, last, h₂, h₃, h₄⟩ hno
    · rw [he]
      simp [h₅]

/-- C14: the tracker handler and the visitor's notify effect construct a
`Notification` only when `Notification.permission` is `granted` (and
notifications are available) and the tab is not visible; if permission is not
granted or the tab is visible, neither constructs one. -/
theorem C14_notification_needs_permission_and_hidden (env : NotifyEnv) (userId : String)
    (uname : Option String) (activeId : Option String) (t : Tracker) (thread : List Message)
    (isNamed : Bool) (ref : Option String) (msgs : List Message) :
    (∀ n, (trackerHandler env userId uname activeId t thread).shown = some n →
      env.permission = "granted" ∧ env.visible = false ∧ env.canUse = true) ∧
    (∀ n, (visitorNotifyEffect env isNamed ref msgs).shown = some n →
      env.permission = "granted" ∧ env.visible = false ∧ env.canUse = true) ∧
    ((env.permission ≠ "granted" ∨ env.visible = true) →
      (trackerHandler env userId uname activeId t thread).shown = none ∧
      (visitorNotifyEffect env isNamed ref msgs).shown = none) := by
  have hT : ∀ n, (trackerHandler env userId uname activeId t thread).shown = some n →
      env.permission = "granted" ∧ env.visible = false ∧ env.canUse = true := by
    intro n hn
    obtain ⟨hv, hs⟩ := trackerHandler_shown env userId uname activeId t thread n hn
    have := showDesktopNotification_some env _ n hs
    exact ⟨this.2.1, hv, this.1⟩
  have hV : ∀ n, (visitorNotifyEffect env isNamed ref msgs).shown = some n →
      env.permission = "granted" ∧ env.visible = false ∧ env.canUse = true := by
    intro n hn
    obtain ⟨hv, hc, hp⟩ := visitorNotifyEffect_shown env isNamed ref msgs n hn
    exact ⟨hp, hv, hc⟩
  refine ⟨hT, hV, ?_⟩
  intro hbad
  constructor
  · cases hs : (trackerHandler env userId uname activeId t thread).shown with
    | none => rfl
    | some n =>
      obtain ⟨hp, hv, _⟩ := hT n hs
      rcases hbad with hb | hb
      · exact absurd hp hb
      · rw [hv] at hb; cases hb
  · cases hs : (visitorNotifyEffect env isNamed ref msgs).shown with
    | none => rfl
    | some n =>
      obtain ⟨hp, hv, _⟩ := hV n hs
      rcases hbad with hb | hb
      · exact absurd hp hb
      · rw [hv] at hb; cases hb

/-- C18: a run of the visitor's notify effect whose last message has the id
recorded in `lastNotifiedIdRef` requests nothing and keeps the record; the id
of an operator-authored last message is recorded whether or not the tab is
visible; of two runs in a row on the same messages at most the first requests
a notification; and along runs whose last ids never go down no id is notified
twice and the recorded id is never notified again. -/
theorem C18_notified_once_per_id :
    (∀ (env : NotifyEnv) (isNamed : Bool) (msgs : List Message) (last : Message),
      msgs.getLast? = some last →
        visitorNotifyEffect env isNamed (some last.id) msgs = ⟨some last.id, none, none⟩) ∧
    (∀ (env : NotifyEnv) (ref : Option String) (msgs : List Message) (last : Message),
      msgs.getLast? = some last → last.sender = "admin" →
        (visitorNotifyEffect env true ref msgs).lastNotifiedId = some last.id) ∧
    (∀ (env env' : NotifyEnv) (isNamed isNamed' : Bool) (ref : Option String)
        (msgs : List Message),
      (visitorNotifyEffect env isNamed ref msgs).requested.isSome = true →
        (visitorNotifyEffect env' isNamed'
          (visitorNotifyEffect env isNamed ref msgs).lastNotifiedId msgs).requested = none) ∧
    (∀ (ref : Option String) (rs : List VisitorRun),
      visitorAscending ref rs = true → (visitorNotifiedIds ref rs).Nodup) ∧
    (∀ (x : String) (rs : List VisitorRun),
      visitorAscending (some x) rs = true → x ∉ visitorNotifiedIds (some x) rs) := by
  refine ⟨?_, ?_, ?_, fun ref rs h => (visitorNotifiedIds_nodup rs ref h).1, ?_⟩
  rotate_left 3
  · intro x rs h hin
    have := (visitorNotifiedIds_nodup rs (some x) h).2 x hin x rfl
    rw [jsGt_irrefl] at this
    cases this
  · intro env isNamed msgs last hl
    rcases visitorNotifyEffect_cases env isNamed (some last.id) msgs with
      ⟨he, _⟩ | ⟨last', _, hl', _, hne, _⟩
    · exact he
    · rw [hl] at hl'
      cases hl'
      exact absurd rfl hne
  · intro env ref msgs last hl hs
    rcases visitorNotifyEffect_cases env true ref msgs with ⟨he, hno⟩ | ⟨last', _, hl', _, _, he⟩
    · rw [he]
      by_contra hne
      exact hno ⟨rfl, last, hl, hs, hne⟩
    · rw [hl] at hl'
      cases hl'
      rw [he]
  · intro env env' isNamed isNamed' ref msgs h
    obtain ⟨n, hn⟩ := Option.isSome_iff_exists.mp h
    obtain ⟨last, _, hl, _, _, _, href⟩ := visitorNotifyEffect_requested env isNamed ref msgs n hn
    rw [href]
    rcases visitorNotifyEffect_cases env' isNamed' (some last.id) msgs with
      ⟨he, _⟩ | ⟨last', _, hl', _, hne, _⟩
    · rw [he]
    · rw [hl] at hl'
      cases hl'
      exact absurd rfl hne

/-! ## Deleting a thread -/

/-- C16: `deleteUserThread` removes the message collection of the
conversation, then its summary: when it completes, neither exists and every
other conversation is untouched; when it stops between the two removals the
messages are gone and the summaries are as before; in no outcome are there
messages of the conversation left while the summaries have changed. -/
theorem C16_deleteUserThread_order (s : Store) (uid : String) :
    deleteUserThread s uid true true = (removeSummary (removeMessages s uid) uid, true) ∧
    objGet (deleteUserThread s uid true true).1.messages uid = none ∧
    objGet (deleteUserThread s uid true true).1.users uid = none ∧
    (∀ other, other ≠ uid →
      objGet (deleteUserThread s uid true true).1.messages other = objGet s.messages other ∧
      objGet (deleteUserThread s uid true true).1.users other = objGet s.users other) ∧
    deleteUserThread s uid true false = (removeMessages s uid, false) ∧
    objGet (deleteUserThread s uid true false).1.messages uid = none ∧
    (deleteUserThread s uid true false).1.users = s.users ∧
    (∀ ok₂, deleteUserThread s uid false ok₂ = (s, false)) ∧
    (∀ ok₁ ok₂, objGet (deleteUserThread s uid ok₁ ok₂).1.messages uid ≠ none →
      (deleteUserThread s uid ok₁ ok₂).1.users = s.users) := by
  refine ⟨rfl, ?_, ?_, ?_, rfl, ?_, rfl, fun _ => rfl, ?_⟩
  · exact objGet_objDel_same _ _
  · exact objGet_objDel_same _ _
  · intro other ho
    exact ⟨objGet_objDel_ne _ _ _ ho, objGet_objDel_ne _ _ _ ho⟩
  · exact objGet_objDel_same _ _
  · intro ok₁ ok₂ h
    cases ok₁ with
    | false => rfl
    | true =>
      cases ok₂ with
      | false => rfl
      | true => exact absurd (objGet_objDel_same _ _) h

/-! ## The roster cleanup on unmount -/

theorem tryCancelAll_eq (throws : Nat → Bool) (ss : List Subscription) :
    ∀ v : View, ss.foldl (tryCancel throws) v =
      { v with
        live := v.live.filter (fun p =>
          ss.all (fun s => throws s.handle || (decide (p.2 ≠ s.userId) && decide (p.1 ≠ s.handle)))),
        log := v.log ++ ss.map (fun s => SubEvent.cancelled s.handle) } := by
  induction ss with
  | nil => intro v; simp
  | cons s ss ih =>
    intro v
    rw [List.foldl_cons, ih]
    unfold tryCancel
    cases ht : throws s.handle with
    | true => simp [ht]
    | false =>
      simp only [cancelSub, List.filter_filter, List.map_cons, List.append_assoc,
        List.singleton_append, List.all_cons, ht, Bool.false_or, Bool.false_eq_true, if_false]
      congr 1
      apply List.filter_congr
      intro p _
      rw [Bool.and_comm]

/-- C17: the cleanup of the roster effect calls the cancel function of every
entry of `unsubByUserRef`, in order, also after one of them has thrown, and
leaves `unsubByUserRef` empty, in every state of the view; the listener of
every cancel function that did not throw is detached; and in every reachable
state React running the pending cleanup (as on unmount) leaves nothing
subscribed. -/
theorem C17_cleanup_cancels_all (throws : Nat → Bool) (v : View) :
    (rosterCleanupTry throws v).unsubByUser = [] ∧
    (rosterCleanupTry throws v).log =
      v.log ++ (objValues v.unsubByUser).map (fun s => SubEvent.cancelled s.handle) ∧
    (∀ s ∈ objValues v.unsubByUser, throws s.handle = false →
      ∀ p ∈ (rosterCleanupTry throws v).live, p.2 ≠ s.userId ∧ p.1 ≠ s.handle) ∧
    rosterCleanupTry (fun _ => false) v = rosterCleanupFn v ∧
    (∀ evs : List Event, (runRosterCleanup (exec View.init evs)).unsubByUser = [] ∧
      ∀ s ∈ objValues (exec View.init evs).unsubByUser,
        SubEvent.cancelled s.handle ∈ (runRosterCleanup (exec View.init evs)).log) := by
  refine ⟨?_, ?_, ?_, ?_, ?_⟩
  · simp [rosterCleanupTry]
  · simp only [rosterCleanupTry, tryCancelAll_eq]
  · intro s hs ht p hp
    simp only [rosterCleanupTry, tryCancelAll_eq] at hp
    have := (List.mem_filter.mp hp).2
    rw [List.all_eq_true] at this
    have := this s hs
    simpa [ht] using this
  · simp only [rosterCleanupTry, rosterCleanupFn]
    congr 1
  · intro evs
    have h := settled_reachable evs
    rw [runRosterCleanup_eq _ h.cleanup]
    refine ⟨rfl, ?_⟩
    intro s hs
    exact List.mem_append_right _ (List.mem_map.mpr ⟨s, hs, rfl⟩)

/-! ## Opening a conversation -/

theorem activeBody_frame (v : View) :
    (activeBody v).unread = v.unread ∧ (activeBody v).lastSeen = v.lastSeen ∧
    (activeBody v).active = v.active ∧ (activeBody v).users = v.users ∧
    (activeBody v).unsubByUser = v.unsubByUser := by
  rw [activeBody_eq]
  cases (activeUserId v).filter truthy <;> exact ⟨rfl, rfl, rfl, rfl, rfl⟩

/-- The effects that run after `active` may have changed leave `unread`,
`lastSeenMsgIdByUserRef`, `active` and `users` alone. -/
theorem afterActiveChange_frame (old : Option String) (v : View) (hc : Core v)
    (h : v.rosterCleanup = false → v.unsubByUser = []) :
    (afterActiveChange old v).unread = v.unread ∧
    (afterActiveChange old v).lastSeen = v.lastSeen ∧
    (afterActiveChange old v).active = v.active ∧
    (afterActiveChange old v).users = v.users := by
  unfold afterActiveChange
  by_cases hsame : activeUserId v = old
  · rw [if_pos hsame]
    exact ⟨rfl, rfl, rfl, rfl⟩
  · rw [if_neg hsame]
    have hc₁ := runActiveCleanup_core v hc
    have h₁ : (runActiveCleanup v).rosterCleanup = false →
        (runActiveCleanup v).unsubByUser = [] := by
      rw [runActiveCleanup_eq]; exact h
    have hn₁ : (runActiveCleanup v).activeUnsub = none := by rw [runActiveCleanup_eq]
    have hc₂ := runRosterCleanup_core _ hc₁ h₁
    have hu₂ : (runRosterCleanup (runActiveCleanup v)).unsubByUser = [] := by
      rw [runRosterCleanup_eq _ h₁]
    have hn₂ : (runRosterCleanup (runActiveCleanup v)).activeUnsub = none := by
      rw [runRosterCleanup_eq _ h₁]; exact hn₁
    have hf₂ : (runRosterCleanup (runActiveCleanup v)).unread = v.unread ∧
        (runRosterCleanup (runActiveCleanup v)).lastSeen = v.lastSeen ∧
        (runRosterCleanup (runActiveCleanup v)).active = v.active ∧
        (runRosterCleanup (runActiveCleanup v)).users = v.users := by
      rw [runRosterCleanup_eq _ h₁, runActiveCleanup_eq]
      exact ⟨rfl, rfl, rfl, rfl⟩
    have hc₃ := activeBody_core _ hc₂ hn₂ hu₂
    obtain ⟨f₁, f₂, f₃, f₄, f₅⟩ := activeBody_frame (runRosterCleanup (runActiveCleanup v))
    have hs := (rosterBody_subscribing _ hc₃ (f₅.trans hu₂)).1
    exact ⟨by rw [hs.unread, f₁, hf₂.1], by rw [hs.lastSeen, f₂, hf₂.2.1],
      by rw [hs.active, f₃, hf₂.2.2.1], by rw [hs.users, f₄, hf₂.2.2.2]⟩

/-- C12: in every reachable state of the operator view and for every roster
entry `u`, `openThread(u)` (with the effects it triggers) sets
`unread[u.userId]` to 0, makes `u` the active conversation, leaves the unread
counter of every other conversation as it was and leaves
`lastSeenMsgIdByUserRef` unchanged. -/
theorem C12_openThread_resets_unread (evs : List Event) (u : Summary) :
    objGet (openThread (exec View.init evs) u).unread u.userId = some 0 ∧
    (openThread (exec View.init evs) u).active = some u ∧
    (∀ other, other ≠ u.userId →
      objGet (openThread (exec View.init evs) u).unread other =
        objGet (exec View.init evs).unread other) ∧
    (openThread (exec View.init evs) u).lastSeen = (exec View.init evs).lastSeen := by
  have h := settled_reachable evs
  generalize exec View.init evs = v at *
  obtain ⟨f₁, f₂, f₃, _⟩ := afterActiveChange_frame (activeUserId v)
    { v with active := some u, unread := objSet v.unread u.userId 0 }
    ⟨h.core.bound, h.core.nodup, h.core.fresh, h.core.keys, h.core.own, h.core.afresh,
      h.core.apart⟩ h.cleanup
  have e₁ : (openThread v u).unread = objSet v.unread u.userId 0 := f₁
  have e₂ : (openThread v u).lastSeen = v.lastSeen := f₂
  have e₃ : (openThread v u).active = some u := f₃
  refine ⟨?_, e₃, ?_, e₂⟩
  · rw [e₁]; exact objGet_objSet_same _ _ _
  · intro other ho
    rw [e₁]; exact objGet_objSet_ne _ _ _ _ ho

end ChatApp
